import Mathlib

/-!
Verification of the MCP (Model Context Protocol) connection-management core of
the srcbook repository, as a shallow embedding in Lean 4.

The embedding covers:
* `McpHub` (packages/api/mcp/McpHub.mts): connection registry, capability
  aggregation with a TTL cache, tool calls, config reconciliation.
* `McpServerManager` (same file): the process-wide singleton with reference
  counting.
* `MCPClientManager` (client-manager.mts): JSON-schema → zod validator
  translation and validated tool dispatch.
* `ServerConfigSchema` (McpHub.mts): the zod union schema for server
  configuration entries.

External effects (the MCP SDK client, transports, timers) are modelled as
explicit oracle arguments: each operation takes the outcome the environment
would produce (e.g. whether `client.connect` resolves or rejects, what a
transport `close()` does, what `Date.now()` returns).  JavaScript exceptions
are modelled with `Except String`, carrying the exception message.
-/

namespace Mcp

/-- JSON values.  Numbers are modelled as integers; none of the verified
properties depend on non-integral numerics. -/
inductive Json where
  | null
  | bool (b : Bool)
  | num (n : Int)
  | str (s : String)
  | arr (items : List Json)
  | obj (fields : List (String × Json))

/-- Property lookup on a JSON value: `j[k]` in JavaScript.  Returns `none`
(undefined) when `j` is not an object or lacks the key.  JavaScript object
property access takes the binding of the first matching key of our
association-list representation. -/
def jget (j : Json) (k : String) : Option Json :=
  match j with
  | Json.obj fields => (fields.find? (fun kv => kv.1 == k)).map (fun kv => kv.2)
  | _ => none

/-- `McpServerSource` from types.mts. -/
inductive McpServerSource where
  | global
  | project
deriving DecidableEq, Repr

/-- `McpServerStatus` from types.mts. -/
inductive McpServerStatus where
  | connecting
  | connected
  | disconnected
  | error
deriving DecidableEq, Repr

/-- `McpServerConfig` from types.mts: a parsed configuration entry, either
stdio-shaped or sse-shaped.  The JSON.stringify comparison performed by
`updateServerConnections` is modelled as structural equality of this parsed
form (field order in the parsed record is fixed). -/
inductive McpServerConfig where
  | stdio (command : String) (args : Option (List String)) (cwd : Option String)
      (env : Option (List (String × String))) (disabled : Option Bool)
      (timeout : Int) (alwaysAllow : List String) (watchPaths : Option (List String))
  | sse (url : String) (headers : Option (List (String × String)))
      (disabled : Option Bool) (timeout : Int) (alwaysAllow : List String)
      (watchPaths : Option (List String))
deriving DecidableEq, Repr

/-- `config.disabled || false` as used by `connectToServer`. -/
def McpServerConfig.disabledFlag : McpServerConfig → Bool
  | .stdio _ _ _ _ d _ _ _ => d.getD false
  | .sse _ _ d _ _ _ => d.getD false

/-- `config.alwaysAllow` (defaulted to `[]` by the settings schema). -/
def McpServerConfig.alwaysAllowList : McpServerConfig → List String
  | .stdio _ _ _ _ _ _ a _ => a
  | .sse _ _ _ _ a _ => a

/-- `McpTool` from types.mts. -/
structure McpTool where
  id : String
  name : String
  description : String
  inputSchema : Json
  outputSchema : Json
  server : String
  alwaysAllow : Bool

/-- `McpResource` from types.mts. -/
structure McpResource where
  uri : String
  name : String
  description : String
  server : String
deriving DecidableEq, Repr

/-- `McpPrompt` from types.mts. -/
structure McpPrompt where
  id : String
  name : String
  description : String
  template : String
  parameters : Json
  server : String

/-- `McpServer` from types.mts. -/
structure McpServer where
  name : String
  config : McpServerConfig
  status : McpServerStatus
  disabled : Bool
  source : McpServerSource
  errors : List String
deriving DecidableEq, Repr

/-- A transport handle.  `real id closeOk` is an SDK transport (stdio or sse)
whose `close()` resolves when `closeOk` is true and rejects otherwise;
`placeholder` is the `{}` object stored by `connectToServer` on its failure
path, which has no `close` method. -/
inductive Transport where
  | real (id : Nat) (closeOk : Bool)
  | placeholder
deriving DecidableEq, Repr

/-- Whether awaiting `transport.close()` completes without throwing.  The
placeholder has no `close` function, so `deleteConnection` skips the call and
proceeds normally. -/
def Transport.closeSucceeds : Transport → Bool
  | .real _ ok => ok
  | .placeholder => true

/-- The transport ids on which `close()` is invoked when this transport is
being shut down (empty for the placeholder, which has no `close`). -/
def Transport.closeInvocations : Transport → List Nat
  | .real id _ => [id]
  | .placeholder => []

/-- `McpConnection` from types.mts.  The SDK client handle carries no state
relevant to the verified properties; its request behaviour is supplied as an
oracle to the operations that use it. -/
structure McpConnection where
  server : McpServer
  transport : Transport
deriving DecidableEq, Repr

/-- The identity of a connection: the (name, source) key. -/
def connKey (c : McpConnection) : String × McpServerSource :=
  (c.server.name, c.server.source)

/-- `McpToolCallResponse` from types.mts (also the shape of the SDK client
response read by `callTool`). -/
structure McpToolCallResponse where
  result : Json
  error : Option String

/-- `McpResourceResponse` from types.mts. -/
structure McpResourceResponse where
  content : String
  mimeType : Option String
  error : Option String
deriving DecidableEq, Repr

/-- The mutable state of `McpHub`.  The three `*ComputedAt` fields are
specification-only instrumentation: each records the `Date.now()` value at
which the corresponding cached array was last assigned (exactly where the
source assigns `cachedTools` / `cachedResources` / `cachedPrompts`).  They
are never read by any operation. -/
structure McpHub where
  connections : List McpConnection
  cachedTools : Option (List McpTool)
  cachedResources : Option (List McpResource)
  cachedPrompts : Option (List McpPrompt)
  lastCacheUpdate : Nat
  toolsComputedAt : Nat
  resourcesComputedAt : Nat
  promptsComputedAt : Nat

/-- The hub state right after construction, before any server is connected. -/
def emptyHub : McpHub :=
  { connections := []
    cachedTools := none
    cachedResources := none
    cachedPrompts := none
    lastCacheUpdate := 0
    toolsComputedAt := 0
    resourcesComputedAt := 0
    promptsComputedAt := 0 }

/-- `CACHE_TTL = 60000` (milliseconds). -/
def CACHE_TTL : Nat := 60000

/-- `McpHub.findConnection`: first connection matching the name, and the
source too when one is given. -/
def McpHub.findConnection (hub : McpHub) (serverName : String)
    (source : Option McpServerSource) : Option McpConnection :=
  hub.connections.find? (fun conn =>
    match source with
    | some s => conn.server.name == serverName && conn.server.source == s
    | none => conn.server.name == serverName)

/-- `McpHub.invalidateCache`: clears the three cached arrays and zeroes the
shared timestamp. -/
def McpHub.invalidateCache (hub : McpHub) : McpHub :=
  { hub with
    cachedTools := none
    cachedResources := none
    cachedPrompts := none
    lastCacheUpdate := 0 }

/-- `McpHub.callTool`.  `clientCall` is the behaviour of
`connection.client.callTool(toolId, args)`: it either resolves to a response
or rejects with an exception message.  The function is total: the source
catches every exception and converts it into a response with the exception
message in `error`. -/
def McpHub.callTool (hub : McpHub) (serverName toolId : String) (args : Json)
    (source : Option McpServerSource)
    (clientCall : String → Json → Except String McpToolCallResponse) :
    McpToolCallResponse :=
  match hub.findConnection serverName source with
  | none =>
    { result := Json.null, error := some ("Server " ++ serverName ++ " not found") }
  | some _ =>
    match clientCall toolId args with
    | .ok response => { result := response.result, error := response.error }
    | .error e => { result := Json.null, error := some e }

/-- Outcome of one connection attempt, i.e. of building the transport and
awaiting `client.connect(transport)`: on success the connection stores a real
transport (`closeOk` fixes how its `close()` will later behave); on failure
the thrown message (which includes transport-construction errors such as an
invalid URL). -/
inductive ConnectOutcome where
  | success (transportId : Nat) (closeOk : Bool)
  | failure (msg : String)
deriving DecidableEq, Repr

/-- `McpHub.deleteConnection`.  Mirrors the source exactly: when a matching
connection exists, `transport.close()` is awaited first (if the transport has
a `close` method), and — because the removal and the cache invalidation sit
in the same `try` block after the close — a rejection from `close()` is
caught, leaving the connection list and the cache untouched.  Returns the new
hub state and the ids of transports on which `close()` was invoked. -/
def McpHub.deleteConnection (hub : McpHub) (name : String)
    (source : Option McpServerSource) : McpHub × List Nat :=
  match hub.findConnection name source with
  | none => (hub, [])
  | some conn =>
    let invoked := conn.transport.closeInvocations
    if conn.transport.closeSucceeds then
      let remaining := hub.connections.filter (fun c =>
        match source with
        | some s => !(c.server.name == name && c.server.source == s)
        | none => !(c.server.name == name))
      (({ hub with connections := remaining }).invalidateCache, invoked)
    else
      (hub, invoked)

/-- `McpHub.connectToServer`.  First tears down any existing connection for
the key, then attempts the connection: on success it appends a connected
server and invalidates the cache; on failure (the `catch` block) it appends a
placeholder connection with status error and the thrown message — without
invalidating the cache.  File-watcher bookkeeping for `watchPaths` only logs
and stores watcher handles and is not modelled. -/
def McpHub.connectToServer (hub : McpHub) (name : String) (config : McpServerConfig)
    (source : McpServerSource) (outcome : ConnectOutcome) : McpHub × List Nat :=
  let del := hub.deleteConnection name (some source)
  match outcome with
  | .success tid closeOk =>
    let server : McpServer :=
      { name := name, config := config, status := .connected
        disabled := config.disabledFlag, source := source, errors := [] }
    let h2 := { del.1 with
      connections := del.1.connections ++
        [({ server := server, transport := .real tid closeOk } : McpConnection)] }
    (h2.invalidateCache, del.2)
  | .failure msg =>
    let server : McpServer :=
      { name := name, config := config, status := .error
        disabled := config.disabledFlag, source := source, errors := [msg] }
    ({ del.1 with
      connections := del.1.connections ++
        [({ server := server, transport := .placeholder } : McpConnection)] },
     del.2)

/-- The connect outcome the environment produces for a given server name
during a reconciliation pass (default: the attempt fails). -/
def lookupOutcome (outcomes : List (String × ConnectOutcome)) (name : String) :
    ConnectOutcome :=
  ((outcomes.find? (fun p => p.1 == name)).map Prod.snd).getD (.failure "connect error")

/-- One iteration of the stale-deletion loop of `updateServerConnections`. -/
def updateDeleteStep (source : McpServerSource) (newServerNames : List String)
    (acc : McpHub × List Nat) (n : String) : McpHub × List Nat :=
  if newServerNames.contains n then acc
  else
    let d := acc.1.deleteConnection n (some source)
    (d.1, acc.2 ++ d.2)

/-- One iteration of the update/create loop of `updateServerConnections`. -/
def updateConnectStep (source : McpServerSource) (outcomes : List (String × ConnectOutcome))
    (acc : McpHub × List Nat) (nc : String × McpServerConfig) : McpHub × List Nat :=
  match acc.1.findConnection nc.1 (some source) with
  | some existing =>
    if existing.server.config = nc.2 then acc
    else
      let c := acc.1.connectToServer nc.1 nc.2 source (lookupOutcome outcomes nc.1)
      (c.1, acc.2 ++ c.2)
  | none =>
    let c := acc.1.connectToServer nc.1 nc.2 source (lookupOutcome outcomes nc.1)
    (c.1, acc.2 ++ c.2)

/-- `McpHub.updateServerConnections`.  Deletes connections of this source
whose name is absent from the desired configs, then for each desired entry
either skips (existing connection with `JSON.stringify`-equal config,
modelled as structural equality of the parsed config) or connects.
`connectToServer` never throws, so the per-server `try/catch` around it never
fires; per-server failures are recorded inside the placeholder connections. -/
def McpHub.updateServerConnections (hub : McpHub)
    (serverConfigs : List (String × McpServerConfig)) (source : McpServerSource)
    (outcomes : List (String × ConnectOutcome)) : McpHub × List Nat :=
  serverConfigs.foldl (updateConnectStep source outcomes)
    (((hub.connections.filter (fun c => c.server.source == source)).map
        (fun c => c.server.name)).foldl
      (updateDeleteStep source (serverConfigs.map Prod.fst)) (hub, []))

/-- One iteration of the cleanup loop of `dispose`. -/
def disposeStep (acc : McpHub × List Nat) (conn : McpConnection) : McpHub × List Nat :=
  let d := acc.1.deleteConnection conn.server.name (some conn.server.source)
  (d.1, acc.2 ++ d.2)

/-- `McpHub.dispose`: calls `deleteConnection` for every entry of the original
connection list (the JavaScript `for...of` iterates the array captured at
loop entry; the field itself is only ever reassigned), then clears the list.
Returns the transports on which `close()` was invoked. -/
def McpHub.dispose (hub : McpHub) : McpHub × List Nat :=
  let looped := hub.connections.foldl disposeStep (hub, [])
  ({ looped.1 with connections := [] }, looped.2)

/-- JavaScript `a || b` for an optional string: `undefined` and the empty
string are falsy. -/
def jsStrOr (a : Option String) (b : String) : String :=
  match a with
  | some s => if s == "" then b else s
  | none => b

/-- A raw tool as returned by `client.listTools()`. -/
structure RawTool where
  id : String
  name : Option String
  description : Option String
  inputSchema : Option Json
  outputSchema : Option Json

/-- A raw resource as returned by `client.listResources()`. -/
structure RawResource where
  uri : String
  name : Option String
  description : Option String

/-- A raw prompt as returned by `client.listPrompts()`. -/
structure RawPrompt where
  id : String
  name : Option String
  description : Option String
  template : Option String
  parameters : Option Json

/-- `McpHub.getToolsList`.  `listTools` is the behaviour of
`connection.client.listTools()`: an exception, a response without a `tools`
field (`.ok none`), or a tool array.  Missing server, missing field and
exceptions all yield `[]`. -/
def McpHub.getToolsList (hub : McpHub) (serverName : String)
    (source : Option McpServerSource)
    (listTools : Except String (Option (List RawTool))) : List McpTool :=
  match hub.findConnection serverName source with
  | none => []
  | some conn =>
    match listTools with
    | .error _ => []
    | .ok none => []
    | .ok (some raws) =>
      raws.map (fun t =>
        { id := t.id
          name := jsStrOr t.name t.id
          description := jsStrOr t.description ""
          inputSchema := t.inputSchema.getD (Json.obj [])
          outputSchema := t.outputSchema.getD (Json.obj [])
          server := serverName
          alwaysAllow := conn.server.config.alwaysAllowList.contains t.id })

/-- `McpHub.getResourcesList`, analogous to `getToolsList`. -/
def McpHub.getResourcesList (hub : McpHub) (serverName : String)
    (source : Option McpServerSource)
    (listResources : Except String (Option (List RawResource))) : List McpResource :=
  match hub.findConnection serverName source with
  | none => []
  | some _ =>
    match listResources with
    | .error _ => []
    | .ok none => []
    | .ok (some raws) =>
      raws.map (fun r =>
        { uri := r.uri
          name := jsStrOr r.name r.uri
          description := jsStrOr r.description ""
          server := serverName })

/-- `McpHub.getPromptsList`, analogous to `getToolsList`. -/
def McpHub.getPromptsList (hub : McpHub) (serverName : String)
    (source : Option McpServerSource)
    (listPrompts : Except String (Option (List RawPrompt))) : List McpPrompt :=
  match hub.findConnection serverName source with
  | none => []
  | some _ =>
    match listPrompts with
    | .error _ => []
    | .ok none => []
    | .ok (some raws) =>
      raws.map (fun p =>
        { id := p.id
          name := jsStrOr p.name p.id
          description := jsStrOr p.description ""
          template := jsStrOr p.template ""
          parameters := p.parameters.getD (Json.obj [])
          server := serverName })

/-- `McpHub.isCacheValid`: the shared timestamp is non-zero and less than
`CACHE_TTL` milliseconds old. -/
def McpHub.isCacheValid (hub : McpHub) (now : Nat) : Bool :=
  decide (0 < hub.lastCacheUpdate) && decide (now - hub.lastCacheUpdate < CACHE_TTL)

/-- The recomputation loop of `aggregateTools`: iterate connections, skip
disabled or non-connected servers, query each and keep the first occurrence
per `server:id` key. -/
def McpHub.computeTools (hub : McpHub)
    (listToolsOracle : String → McpServerSource → Except String (Option (List RawTool))) :
    List McpTool :=
  (hub.connections.foldl
    (fun (acc : List McpTool × List String) conn =>
      if conn.server.disabled || conn.server.status != .connected then acc
      else
        let serverTools := hub.getToolsList conn.server.name (some conn.server.source)
          (listToolsOracle conn.server.name conn.server.source)
        serverTools.foldl
          (fun (acc2 : List McpTool × List String) tool =>
            let toolKey := tool.server ++ ":" ++ tool.id
            if acc2.2.contains toolKey then acc2
            else (acc2.1 ++ [tool], acc2.2 ++ [toolKey]))
          acc)
    ([], [])).1

/-- `McpHub.aggregateTools`: return the cached array if set and valid, else
recompute, cache with `lastCacheUpdate := now` and return.
`toolsComputedAt` is the ghost record of the assignment time. -/
def McpHub.aggregateTools (hub : McpHub) (now : Nat)
    (listToolsOracle : String → McpServerSource → Except String (Option (List RawTool))) :
    List McpTool × McpHub :=
  match hub.cachedTools with
  | some ts =>
    if hub.isCacheValid now then (ts, hub)
    else
      let fresh := hub.computeTools listToolsOracle
      (fresh, { hub with cachedTools := some fresh, lastCacheUpdate := now,
                         toolsComputedAt := now })
  | none =>
    let fresh := hub.computeTools listToolsOracle
    (fresh, { hub with cachedTools := some fresh, lastCacheUpdate := now,
                       toolsComputedAt := now })

/-- The recomputation loop of `aggregateResources` (first occurrence per
`server:uri` key wins). -/
def McpHub.computeResources (hub : McpHub)
    (listResourcesOracle : String → McpServerSource → Except String (Option (List RawResource))) :
    List McpResource :=
  (hub.connections.foldl
    (fun (acc : List McpResource × List String) conn =>
      if conn.server.disabled || conn.server.status != .connected then acc
      else
        let serverResources := hub.getResourcesList conn.server.name (some conn.server.source)
          (listResourcesOracle conn.server.name conn.server.source)
        serverResources.foldl
          (fun (acc2 : List McpResource × List String) r =>
            let rKey := r.server ++ ":" ++ r.uri
            if acc2.2.contains rKey then acc2
            else (acc2.1 ++ [r], acc2.2 ++ [rKey]))
          acc)
    ([], [])).1

/-- `McpHub.aggregateResources`, sharing `lastCacheUpdate` with the other two
aggregates. -/
def McpHub.aggregateResources (hub : McpHub) (now : Nat)
    (listResourcesOracle : String → McpServerSource → Except String (Option (List RawResource))) :
    List McpResource × McpHub :=
  match hub.cachedResources with
  | some rs =>
    if hub.isCacheValid now then (rs, hub)
    else
      let fresh := hub.computeResources listResourcesOracle
      (fresh, { hub with cachedResources := some fresh, lastCacheUpdate := now,
                         resourcesComputedAt := now })
  | none =>
    let fresh := hub.computeResources listResourcesOracle
    (fresh, { hub with cachedResources := some fresh, lastCacheUpdate := now,
                       resourcesComputedAt := now })

/-- The recomputation loop of `aggregatePrompts` (first occurrence per
`server:id` key wins). -/
def McpHub.computePrompts (hub : McpHub)
    (listPromptsOracle : String → McpServerSource → Except String (Option (List RawPrompt))) :
    List McpPrompt :=
  (hub.connections.foldl
    (fun (acc : List McpPrompt × List String) conn =>
      if conn.server.disabled || conn.server.status != .connected then acc
      else
        let serverPrompts := hub.getPromptsList conn.server.name (some conn.server.source)
          (listPromptsOracle conn.server.name conn.server.source)
        serverPrompts.foldl
          (fun (acc2 : List McpPrompt × List String) p =>
            let pKey := p.server ++ ":" ++ p.id
            if acc2.2.contains pKey then acc2
            else (acc2.1 ++ [p], acc2.2 ++ [pKey]))
          acc)
    ([], [])).1

/-- `McpHub.aggregatePrompts`, sharing `lastCacheUpdate` with the other two
aggregates. -/
def McpHub.aggregatePrompts (hub : McpHub) (now : Nat)
    (listPromptsOracle : String → McpServerSource → Except String (Option (List RawPrompt))) :
    List McpPrompt × McpHub :=
  match hub.cachedPrompts with
  | some ps =>
    if hub.isCacheValid now then (ps, hub)
    else
      let fresh := hub.computePrompts listPromptsOracle
      (fresh, { hub with cachedPrompts := some fresh, lastCacheUpdate := now,
                         promptsComputedAt := now })
  | none =>
    let fresh := hub.computePrompts listPromptsOracle
    (fresh, { hub with cachedPrompts := some fresh, lastCacheUpdate := now,
                       promptsComputedAt := now })

/-- One operation from the vocabulary of claim C2. -/
inductive HubOp where
  | connect (name : String) (config : McpServerConfig) (source : McpServerSource)
      (outcome : ConnectOutcome)
  | delete (name : String) (source : Option McpServerSource)
  | update (serverConfigs : List (String × McpServerConfig)) (source : McpServerSource)
      (outcomes : List (String × ConnectOutcome))

/-- Apply one hub operation (dropping the list of invoked closes). -/
def applyHubOp (hub : McpHub) : HubOp → McpHub
  | .connect n c s o => (hub.connectToServer n c s o).1
  | .delete n s => (hub.deleteConnection n s).1
  | .update cfgs s outs => (hub.updateServerConnections cfgs s outs).1

/-- Run a sequence of hub operations from a given state. -/
def runHubOps (hub : McpHub) (ops : List HubOp) : McpHub :=
  ops.foldl applyHubOp hub

/-- An outcome whose transport close will later succeed. -/
def ConnectOutcome.isGood : ConnectOutcome → Bool
  | .success _ ok => ok
  | .failure _ => true

/-- An operation all of whose connect outcomes produce transports whose
`close()` succeeds. -/
def HubOp.isGood : HubOp → Bool
  | .connect _ _ _ o => o.isGood
  | .delete _ _ => true
  | .update _ _ outs => outs.all (fun p => p.2.isGood)

/-- The hub invariant of the amended C2: connection keys are pairwise
distinct and every stored transport closes cleanly. -/
def GoodHub (hub : McpHub) : Prop :=
  (hub.connections.map connKey).Nodup ∧
    ∀ c ∈ hub.connections, c.transport.closeSucceeds = true

/-- A sample stdio server configuration. -/
def sampleConfig : McpServerConfig :=
  .stdio "echo" none none none none 60 [] none

/-- A second, different stdio server configuration. -/
def sampleConfig2 : McpServerConfig :=
  .stdio "cat" none none none none 60 [] none
/-- The filter predicate with which `deleteConnection` rebuilds the
connection list (keep = does not match the deleted key). -/
def keepPred (n : String) (src : Option McpServerSource) (c : McpConnection) : Bool :=
  match src with
  | some s => !(c.server.name == n && c.server.source == s)
  | none => !(c.server.name == n)

lemma deleteConnection_of_find_none {hub : McpHub} {n : String} {s : Option McpServerSource}
    (h : hub.findConnection n s = none) :
    hub.deleteConnection n s = (hub, []) := by
  simp [McpHub.deleteConnection, h]

lemma deleteConnection_of_close_fail {hub : McpHub} {n : String} {s : Option McpServerSource}
    {conn : McpConnection} (h : hub.findConnection n s = some conn)
    (hc : conn.transport.closeSucceeds = false) :
    hub.deleteConnection n s = (hub, conn.transport.closeInvocations) := by
  simp [McpHub.deleteConnection, h, hc]

lemma deleteConnection_of_close_ok {hub : McpHub} {n : String} {s : Option McpServerSource}
    {conn : McpConnection} (h : hub.findConnection n s = some conn)
    (hc : conn.transport.closeSucceeds = true) :
    hub.deleteConnection n s =
      (({ hub with connections := hub.connections.filter (keepPred n s) }).invalidateCache,
       conn.transport.closeInvocations) := by
  simp only [McpHub.deleteConnection, h, hc, if_pos]
  rfl

lemma deleteConnection_sublist (hub : McpHub) (n : String) (s : Option McpServerSource) :
    ((hub.deleteConnection n s).1).connections.Sublist hub.connections := by
  cases h : hub.findConnection n s with
  | none => rw [deleteConnection_of_find_none h]
  | some conn =>
    cases hc : conn.transport.closeSucceeds with
    | false => rw [deleteConnection_of_close_fail h hc]
    | true =>
      rw [deleteConnection_of_close_ok h hc]
      exact List.filter_sublist _

lemma GoodHub.of_sublist {hub hub' : McpHub}
    (hsub : hub'.connections.Sublist hub.connections) (h : GoodHub hub) : GoodHub hub' :=
  ⟨List.Nodup.sublist (hsub.map connKey) h.1, fun c hc => h.2 c (hsub.mem hc)⟩

lemma deleteConnection_goodHub (hub : McpHub) (n : String) (s : Option McpServerSource)
    (h : GoodHub hub) : GoodHub ((hub.deleteConnection n s).1) :=
  GoodHub.of_sublist (deleteConnection_sublist hub n s) h

/-- After `deleteConnection name (some s)` on a hub whose transports all close
cleanly, no connection with key `(name, s)` remains. -/
lemma deleteConnection_removes_key (hub : McpHub) (n : String) (s : McpServerSource)
    (hgood : ∀ c ∈ hub.connections, c.transport.closeSucceeds = true) :
    ∀ c ∈ ((hub.deleteConnection n (some s)).1).connections, connKey c ≠ (n, s) := by
  intro c hc hkey
  have hname : c.server.name = n := congrArg Prod.fst hkey
  have hsource : c.server.source = s := congrArg Prod.snd hkey
  cases h : hub.findConnection n (some s) with
  | none =>
    rw [deleteConnection_of_find_none h] at hc
    have := List.find?_eq_none.mp h c hc
    simp [hname, hsource] at this
  | some conn =>
    have hclose := hgood conn (List.mem_of_find?_eq_some h)
    rw [deleteConnection_of_close_ok h hclose] at hc
    have hmemf : c ∈ hub.connections.filter (keepPred n (some s)) := hc
    have := (List.mem_filter.mp hmemf).2
    simp [keepPred, hname, hsource] at this

lemma connectToServer_connections (hub : McpHub) (n : String) (cfg : McpServerConfig)
    (s : McpServerSource) (o : ConnectOutcome) :
    ∃ srv tr, ((hub.connectToServer n cfg s o).1).connections =
      ((hub.deleteConnection n (some s)).1).connections ++
        [({ server := srv, transport := tr } : McpConnection)] ∧
      srv.name = n ∧ srv.source = s ∧
      (o.isGood = true → tr.closeSucceeds = true) := by
  cases o with
  | success tid closeOk =>
    refine ⟨{ name := n, config := cfg, status := .connected,
              disabled := cfg.disabledFlag, source := s, errors := [] },
            .real tid closeOk, ?_, rfl, rfl, ?_⟩
    · simp [McpHub.connectToServer, McpHub.invalidateCache]
    · intro h
      simpa [ConnectOutcome.isGood, Transport.closeSucceeds] using h
  | failure msg =>
    refine ⟨{ name := n, config := cfg, status := .error,
              disabled := cfg.disabledFlag, source := s, errors := [msg] },
            .placeholder, ?_, rfl, rfl, ?_⟩
    · simp [McpHub.connectToServer]
    · intro _
      rfl

lemma connectToServer_goodHub (hub : McpHub) (n : String) (cfg : McpServerConfig)
    (s : McpServerSource) (o : ConnectOutcome)
    (h : GoodHub hub) (ho : o.isGood = true) :
    GoodHub ((hub.connectToServer n cfg s o).1) := by
  have hdel : GoodHub ((hub.deleteConnection n (some s)).1) :=
    deleteConnection_goodHub hub n (some s) h
  have hnokey := deleteConnection_removes_key hub n s h.2
  obtain ⟨srv, tr, hconns, hn, hs, htr⟩ := connectToServer_connections hub n cfg s o
  constructor
  · rw [hconns, List.map_append]
    rw [List.nodup_append]
    refine ⟨hdel.1, List.nodup_singleton _, ?_⟩
    intro k hk hk1
    simp only [List.map_cons, List.map_nil, List.mem_singleton] at hk1
    obtain ⟨c, hcmem, hck⟩ := List.mem_map.mp hk
    apply hnokey c hcmem
    rw [hck, hk1]
    simp [connKey, hn, hs]
  · intro c hcmem
    rw [hconns] at hcmem
    rcases List.mem_append.mp hcmem with hin | hone
    · exact hdel.2 c hin
    · have : c = { server := srv, transport := tr } := List.mem_singleton.mp hone
      rw [this]
      exact htr ho

lemma foldl_preserves {α σ : Type _} (P : σ → Prop) (f : σ → α → σ) (l : List α)
    (init : σ) (h0 : P init) (hstep : ∀ st a, a ∈ l → P st → P (f st a)) :
    P (l.foldl f init) := by
  induction l generalizing init with
  | nil => exact h0
  | cons x xs ih =>
    exact ih (f init x) (hstep init x (List.mem_cons_self x xs) h0)
      (fun st a ha => hstep st a (List.mem_cons_of_mem x ha))

lemma lookupOutcome_isGood (outs : List (String × ConnectOutcome)) (n : String)
    (h : outs.all (fun p => p.2.isGood) = true) :
    (lookupOutcome outs n).isGood = true := by
  unfold lookupOutcome
  cases hf : outs.find? (fun p => p.1 == n) with
  | none => rfl
  | some p =>
    have hmem : p ∈ outs := List.mem_of_find?_eq_some hf
    simpa using List.all_eq_true.mp h p hmem

lemma updateDeleteStep_goodHub (source : McpServerSource) (names : List String)
    (st : McpHub × List Nat) (a : String) (hst : GoodHub st.1) :
    GoodHub (updateDeleteStep source names st a).1 := by
  unfold updateDeleteStep
  split
  · exact hst
  · exact deleteConnection_goodHub st.1 a (some source) hst

lemma updateConnectStep_goodHub (source : McpServerSource)
    (outs : List (String × ConnectOutcome)) (st : McpHub × List Nat)
    (nc : String × McpServerConfig) (hst : GoodHub st.1)
    (houts : outs.all (fun p => p.2.isGood) = true) :
    GoodHub (updateConnectStep source outs st nc).1 := by
  unfold updateConnectStep
  split
  · split
    · exact hst
    · exact connectToServer_goodHub st.1 nc.1 nc.2 source (lookupOutcome outs nc.1) hst
        (lookupOutcome_isGood outs nc.1 houts)
  · exact connectToServer_goodHub st.1 nc.1 nc.2 source (lookupOutcome outs nc.1) hst
      (lookupOutcome_isGood outs nc.1 houts)

lemma updateServerConnections_goodHub (hub : McpHub)
    (cfgs : List (String × McpServerConfig)) (s : McpServerSource)
    (outs : List (String × ConnectOutcome))
    (h : GoodHub hub) (houts : outs.all (fun p => p.2.isGood) = true) :
    GoodHub ((hub.updateServerConnections cfgs s outs).1) := by
  unfold McpHub.updateServerConnections
  refine foldl_preserves (fun (acc : McpHub × List Nat) => GoodHub acc.1) _ _ _ ?_ ?_
  · refine foldl_preserves (fun (acc : McpHub × List Nat) => GoodHub acc.1) _ _ _ h ?_
    intro st a _ hst
    exact updateDeleteStep_goodHub s _ st a hst
  · intro st nc _ hst
    exact updateConnectStep_goodHub s outs st nc hst houts

lemma applyHubOp_goodHub (hub : McpHub) (op : HubOp)
    (h : GoodHub hub) (hop : op.isGood = true) : GoodHub (applyHubOp hub op) := by
  cases op with
  | connect n c s o => exact connectToServer_goodHub hub n c s o h hop
  | delete n s => exact deleteConnection_goodHub hub n s h
  | update cfgs s outs => exact updateServerConnections_goodHub hub cfgs s outs h hop

lemma runHubOps_goodHub (ops : List HubOp) (hub : McpHub)
    (h : GoodHub hub) (hops : ∀ op ∈ ops, op.isGood = true) :
    GoodHub (runHubOps hub ops) :=
  foldl_preserves GoodHub applyHubOp ops hub h
    (fun st a ha hst => applyHubOp_goodHub st a hst (hops a ha))

lemma length_filter_le_one_of_nodup_map {α β : Type _} (f : α → β) (p : α → Bool)
    (b : β) (hp : ∀ x, p x = true ↔ f x = b) (l : List α) (h : (l.map f).Nodup) :
    (l.filter p).length ≤ 1 := by
  induction l with
  | nil => simp
  | cons x xs ih =>
    simp only [List.map_cons, List.nodup_cons] at h
    cases hx : p x with
    | false => simpa [List.filter_cons, hx] using ih h.2
    | true =>
      have hfx : f x = b := (hp x).mp hx
      have hnil : xs.filter p = [] := by
        apply List.filter_eq_nil_iff.mpr
        intro y hy hyb
        have hfy : f y = b := (hp y).mp hyb
        exact h.1 (hfy.trans hfx.symm ▸ List.mem_map_of_mem f hy)
      simp [List.filter_cons, hx, hnil]

/-- C2 counterexample: from the empty hub, connect "a" obtaining a transport
whose `close()` rejects, then connect "a" again.  The teardown inside the
second `connectToServer` catches the close rejection without removing the old
connection, so two connections with key ("a", global) coexist. -/
theorem C2_counterexample :
    ((runHubOps emptyHub
        [ .connect "a" sampleConfig .global (.success 1 false),
          .connect "a" sampleConfig2 .global (.success 2 true) ]).connections.filter
      (fun c => c.server.name == "a" && c.server.source == McpServerSource.global)).length
      = 2 := by
  decide

/-- C2 amended: after any sequence of `connectToServer`, `deleteConnection`
and `updateServerConnections` operations all of whose created transports have
a `close()` that succeeds, the hub holds at most one connection per
(name, source) key.  (The unamended claim fails when a transport `close()`
rejects during teardown: `deleteConnection` then leaves the old connection in
the list, see the counterexample.) -/
theorem C2_at_most_one_connection_per_key (ops : List HubOp)
    (hops : ∀ op ∈ ops, op.isGood = true) (n : String) (s : McpServerSource) :
    ((runHubOps emptyHub ops).connections.filter
      (fun c => c.server.name == n && c.server.source == s)).length ≤ 1 := by
  have hgood : GoodHub (runHubOps emptyHub ops) :=
    runHubOps_goodHub ops emptyHub ⟨by simp [emptyHub], by simp [emptyHub]⟩ hops
  refine length_filter_le_one_of_nodup_map connKey _ (n, s) ?_ _ hgood.1
  intro c
  simp [connKey, Prod.ext_iff]

/-- Witness for the amended C2 at a concrete good operation sequence. -/
theorem C2_witness :
    (∀ op ∈ [HubOp.connect "a" sampleConfig .global (.success 1 true),
             HubOp.connect "a" sampleConfig2 .global (.success 2 true),
             HubOp.delete "b" none], op.isGood = true) ∧
    ((runHubOps emptyHub
        [ .connect "a" sampleConfig .global (.success 1 true),
          .connect "a" sampleConfig2 .global (.success 2 true),
          .delete "b" none ]).connections.filter
      (fun c => c.server.name == "a" && c.server.source == McpServerSource.global)).length
      ≤ 1 :=
  ⟨by decide, C2_at_most_one_connection_per_key _ (by decide) "a" .global⟩

/-- C1: for every server name with no connection, `callTool` returns a result
with `result` null and `error` exactly "Server <name> not found"; and every
transport-layer exception is caught and converted into a response whose
`error` field holds the exception message.  `callTool` never throws: in the
embedding it is a total function into `McpToolCallResponse`. -/
theorem C1_callTool_not_found_and_never_throws
    (hub : McpHub) (serverName toolId : String) (args : Json)
    (source : Option McpServerSource)
    (clientCall : String → Json → Except String McpToolCallResponse) :
    (hub.findConnection serverName source = none →
      hub.callTool serverName toolId args source clientCall =
        { result := Json.null
          error := some ("Server " ++ serverName ++ " not found") }) ∧
    (∀ conn e, hub.findConnection serverName source = some conn →
      clientCall toolId args = .error e →
      hub.callTool serverName toolId args source clientCall =
        { result := Json.null, error := some e }) := by
  constructor
  · intro hnone
    simp [McpHub.callTool, hnone]
  · intro conn e hsome herr
    simp [McpHub.callTool, hsome, herr]

/-- Witness for C1 at the concrete scenario of the spec: an empty hub,
`callTool("missing-server", "x", obj [])`. -/
theorem C1_witness :
    emptyHub.findConnection "missing-server" none = none ∧
    emptyHub.callTool "missing-server" "x" (Json.obj []) none
        (fun _ _ => .error "boom") =
      { result := Json.null, error := some "Server missing-server not found" } :=
  ⟨rfl, by exact
    (C1_callTool_not_found_and_never_throws emptyHub "missing-server" "x"
      (Json.obj []) none (fun _ _ => .error "boom")).1 rfl⟩

/-! ### C3: cache TTL -/

lemma isCacheValid_iff (hub : McpHub) (now : Nat) :
    hub.isCacheValid now = true ↔
      0 < hub.lastCacheUpdate ∧ now - hub.lastCacheUpdate < CACHE_TTL := by
  simp [McpHub.isCacheValid]

/-- Tools oracle for the C3 scenario at the first aggregation: server "a"
reports a single tool "toolA". -/
def c3oracleA : String → McpServerSource → Except String (Option (List RawTool)) :=
  fun _ _ => .ok (some [{ id := "toolA", name := none, description := none,
                          inputSchema := none, outputSchema := none }])

/-- Tools oracle at the later aggregation: server "a" now reports "toolB". -/
def c3oracleB : String → McpServerSource → Except String (Option (List RawTool)) :=
  fun _ _ => .ok (some [{ id := "toolB", name := none, description := none,
                          inputSchema := none, outputSchema := none }])

/-- Resources oracle: server "a" reports no resources. -/
def c3oracleR : String → McpServerSource → Except String (Option (List RawResource)) :=
  fun _ _ => .ok (some [])

/-- C3 scenario, step 0: connect server "a". -/
def c3hub1 : McpHub :=
  (emptyHub.connectToServer "a" sampleConfig .global (.success 1 true)).1

/-- C3 scenario, step 1: aggregate tools at t = 1000 ms (caches ["toolA"]). -/
def c3hub2 : McpHub := (c3hub1.aggregateTools 1000 c3oracleA).2

/-- C3 scenario, step 2: aggregate resources at t = 50000 ms.  This resets the
shared `lastCacheUpdate` to 50000 without touching `cachedTools`. -/
def c3hub3 : McpHub := (c3hub2.aggregateResources 50000 c3oracleR).2

/-- C3 counterexample: at t = 70000 ms, `aggregateTools` returns the cached
list computed at t = 1000 ms — 69 seconds earlier, beyond the 60 s TTL — and
not the fresh recomputation, because the intervening `aggregateResources`
refreshed the shared `lastCacheUpdate` timestamp. -/
theorem C3_counterexample :
    ((c3hub3.aggregateTools 70000 c3oracleB).1).map McpTool.id = ["toolA"] ∧
    (c3hub3.computeTools c3oracleB).map McpTool.id = ["toolB"] ∧
    (c3hub3.aggregateTools 70000 c3oracleB).1 ≠ c3hub3.computeTools c3oracleB ∧
    c3hub3.toolsComputedAt = 1000 ∧
    CACHE_TTL < 70000 - c3hub3.toolsComputedAt := by
  refine ⟨rfl, rfl, ?_, rfl, by decide⟩
  intro h
  have h2 : (["toolA"] : List String) = ["toolB"] := congrArg (List.map McpTool.id) h
  exact absurd h2 (by decide)

/-- C3 amended: every `aggregateTools` call returns either the fresh
recomputation from the currently connected servers, or the cached list — and
the cached list is returned only when the shared `lastCacheUpdate` timestamp
(set by whichever of the three aggregates last recomputed) is non-zero and
less than 60 s old.  Because the timestamp is shared, the tools list itself
may be older than the TTL (see the counterexample). -/
theorem C3_cached_only_within_shared_ttl (hub : McpHub) (now : Nat)
    (oracle : String → McpServerSource → Except String (Option (List RawTool))) :
    (hub.aggregateTools now oracle).1 = hub.computeTools oracle ∨
    (hub.cachedTools = some ((hub.aggregateTools now oracle).1) ∧
      0 < hub.lastCacheUpdate ∧ now - hub.lastCacheUpdate < CACHE_TTL) := by
  cases h : hub.cachedTools with
  | none =>
    left
    simp [McpHub.aggregateTools, h]
  | some ts =>
    cases hv : hub.isCacheValid now with
    | true =>
      right
      have hvp := (isCacheValid_iff hub now).mp hv
      refine ⟨?_, hvp.1, hvp.2⟩
      simp [McpHub.aggregateTools, h, hv]
    | false =>
      left
      simp [McpHub.aggregateTools, h, hv]


/-! ### The McpServerManager singleton / refcount layer -/

/-- An application provider, identified opaquely. -/
abbrev Provider := String

/-- The static state of `McpServerManager`.  `hubInstance` is
`McpServerManager.instance`, `configWatcher` records whether the settings
file watcher is open.  `refCount` is an integer because the source decrements
it without a lower bound.  Sequential modelling: `getInstance` suspends only
after the instance and counter updates, so the in-flight initialization
promise never observes a concurrent second construction. -/
structure ManagerState where
  hubInstance : Option McpHub
  providers : List Provider
  refCount : Int
  configWatcher : Bool
  initialized : Bool

/-- The manager state at process start. -/
def ManagerState.fresh : ManagerState :=
  { hubInstance := none, providers := [], refCount := 0,
    configWatcher := false, initialized := false }

/-- JavaScript `Set.add`: appends if absent. -/
def providersAdd (ps : List Provider) (p : Provider) : List Provider :=
  if ps.contains p then ps else ps ++ [p]

/-- `McpServerManager.getInstance(provider)`.  Registers the provider,
increments the reference counter, and creates the hub on first call.
`freshHub` is the hub state produced by the `McpHub` constructor plus
`loadConfiguration` (it depends on the settings file, an external input) and
is used only when no instance exists.  Creating also runs `initialize`,
which installs the config watcher. -/
def McpServerManager.getInstance (st : ManagerState) (p : Provider)
    (freshHub : McpHub) : ManagerState :=
  let st1 := { st with providers := providersAdd st.providers p,
                       refCount := st.refCount + 1 }
  match st1.hubInstance with
  | some _ => st1
  | none =>
    { st1 with hubInstance := some freshHub, configWatcher := true,
               initialized := true }

/-- `McpServerManager.cleanup`: dispose the hub (if any), close the config
watcher, clear providers, reset the counter and the initialized flag.
Returns the transport ids on which `close()` was invoked by the dispose. -/
def McpServerManager.cleanup (st : ManagerState) : ManagerState × List Nat :=
  ({ hubInstance := none, providers := [], refCount := 0,
     configWatcher := false, initialized := false },
   match st.hubInstance with
   | some h => h.dispose.2
   | none => [])

/-- `McpServerManager.unregisterProvider(provider)`: removes the provider
from the set (a no-op when absent), decrements the counter unconditionally,
and runs `cleanup` when the counter is now zero or below. -/
def McpServerManager.unregisterProvider (st : ManagerState) (p : Provider) :
    ManagerState × List Nat :=
  let st1 := { st with providers := st.providers.erase p,
                       refCount := st.refCount - 1 }
  if st1.refCount ≤ 0 then McpServerManager.cleanup st1 else (st1, [])

/-- A sequence of `getInstance` calls. -/
def runGets (st : ManagerState) (ps : List Provider) (freshHub : McpHub) :
    ManagerState :=
  ps.foldl (fun s p => McpServerManager.getInstance s p freshHub) st

/-- A sequence of `unregisterProvider` calls. -/
def runUnregs (st : ManagerState) (qs : List Provider) : ManagerState :=
  qs.foldl (fun s q => (McpServerManager.unregisterProvider s q).1) st

lemma getInstance_refCount (st : ManagerState) (p : Provider) (fh : McpHub) :
    (McpServerManager.getInstance st p fh).refCount = st.refCount + 1 := by
  unfold McpServerManager.getInstance
  cases h : st.hubInstance <;> simp [h]

lemma getInstance_keeps (st : ManagerState) (p : Provider) (fh : McpHub)
    (h : McpHub) (hh : st.hubInstance = some h) :
    (McpServerManager.getInstance st p fh).hubInstance = some h ∧
    (McpServerManager.getInstance st p fh).configWatcher = st.configWatcher := by
  unfold McpServerManager.getInstance
  simp [hh]

lemma runGets_refCount (ps : List Provider) (st : ManagerState) (fh : McpHub) :
    (runGets st ps fh).refCount = st.refCount + (ps.length : Int) := by
  induction ps generalizing st with
  | nil => simp [runGets]
  | cons p ps ih =>
    have : runGets st (p :: ps) fh = runGets (McpServerManager.getInstance st p fh) ps fh := rfl
    rw [this, ih, getInstance_refCount]
    simp only [List.length_cons]
    push_cast
    ring

lemma runGets_keeps (ps : List Provider) (st : ManagerState) (fh : McpHub)
    (h : McpHub) (hh : st.hubInstance = some h) :
    (runGets st ps fh).hubInstance = some h ∧
    (runGets st ps fh).configWatcher = st.configWatcher := by
  induction ps generalizing st with
  | nil => exact ⟨hh, rfl⟩
  | cons p ps ih =>
    have hstep := getInstance_keeps st p fh h hh
    have := ih (McpServerManager.getInstance st p fh) hstep.1
    exact ⟨this.1, this.2.trans hstep.2⟩

lemma unregister_alive (st : ManagerState) (q : Provider)
    (h : 0 < st.refCount - 1) :
    (McpServerManager.unregisterProvider st q).1 =
      { st with providers := st.providers.erase q, refCount := st.refCount - 1 } := by
  unfold McpServerManager.unregisterProvider
  simp [Int.not_le.mpr h]

lemma runUnregs_alive (qs : List Provider) (st : ManagerState)
    (h : (qs.length : Int) < st.refCount) :
    (runUnregs st qs).refCount = st.refCount - qs.length ∧
    (runUnregs st qs).hubInstance = st.hubInstance ∧
    (runUnregs st qs).configWatcher = st.configWatcher := by
  induction qs generalizing st with
  | nil => exact ⟨by simp [runUnregs], rfl, rfl⟩
  | cons q qs ih =>
    have hlen : ((q :: qs).length : Int) = qs.length + 1 := by
      simp only [List.length_cons]
      push_cast
      ring
    have hpos : 0 < st.refCount - 1 := by
      rw [hlen] at h
      omega
    have hstep := unregister_alive st q hpos
    have hrun : runUnregs st (q :: qs) =
        runUnregs (McpServerManager.unregisterProvider st q).1 qs := rfl
    rw [hrun, hstep]
    have hih := ih { st with providers := st.providers.erase q,
                             refCount := st.refCount - 1 }
      (by simp only []; rw [hlen] at h; omega)
    refine ⟨?_, hih.2.1, hih.2.2⟩
    rw [hih.1]
    simp only []
    omega

/-- The ids of the real (closable) transports of a hub. -/
def realTransportIds (hub : McpHub) : List Nat :=
  hub.connections.filterMap (fun c =>
    match c.transport with
    | .real id _ => some id
    | .placeholder => none)

lemma eq_of_nodup_map {α β : Type _} (f : α → β) :
    ∀ {l : List α}, (l.map f).Nodup → ∀ {a b : α}, a ∈ l → b ∈ l → f a = f b → a = b := by
  intro l
  induction l with
  | nil => intro _ a b ha; cases ha
  | cons x xs ih =>
    intro h a b ha hb hf
    simp only [List.map_cons, List.nodup_cons] at h
    rcases List.mem_cons.mp ha with ha1 | ha2 <;>
      rcases List.mem_cons.mp hb with hb1 | hb2
    · rw [ha1, hb1]
    · exfalso
      apply h.1
      rw [ha1] at hf
      rw [hf]
      exact List.mem_map_of_mem f hb2
    · exfalso
      apply h.1
      rw [hb1] at hf
      rw [← hf]
      exact List.mem_map_of_mem f ha2
    · exact ih h.2 ha2 hb2 hf

lemma findConnection_eq_of_mem (hub : McpHub) (c : McpConnection)
    (hmem : c ∈ hub.connections)
    (hnodup : (hub.connections.map connKey).Nodup) :
    hub.findConnection c.server.name (some c.server.source) = some c := by
  have hpred : (fun conn : McpConnection =>
      conn.server.name == c.server.name && conn.server.source == c.server.source) c = true := by
    simp
  cases hf : hub.findConnection c.server.name (some c.server.source) with
  | none =>
    have := List.find?_eq_none.mp hf c hmem
    simp at this
  | some d =>
    have hdmem : d ∈ hub.connections := List.mem_of_find?_eq_some hf
    have hdpred := List.find?_some hf
    simp only [Bool.and_eq_true, beq_iff_eq] at hdpred
    have hkey : connKey d = connKey c := by
      simp [connKey, hdpred.1, hdpred.2]
    rw [eq_of_nodup_map connKey hnodup hdmem hmem hkey]

lemma foldl_dispose_closed_mono (l : List McpConnection) (st : McpHub × List Nat) :
    ∀ x ∈ st.2, x ∈ (l.foldl disposeStep st).2 := by
  induction l generalizing st with
  | nil => intro x hx; exact hx
  | cons c cs ih =>
    intro x hx
    apply ih (disposeStep st c)
    unfold disposeStep
    exact List.mem_append_left _ hx

lemma dispose_fold_closes (l : List McpConnection) :
    ∀ (h : McpHub) (cs : List Nat),
    (l.map connKey).Nodup →
    ((h.connections.map connKey).Nodup) →
    (∀ c ∈ l, c ∈ h.connections) →
    ∀ c ∈ l, ∀ tid ok, c.transport = .real tid ok →
      tid ∈ (l.foldl disposeStep (h, cs)).2 := by
  induction l with
  | nil => intro _ _ _ _ _ c hc; cases hc
  | cons c0 rest ih =>
    intro h cs hlnodup hhnodup hsub c hc tid ok htr
    have hc0mem : c0 ∈ h.connections := hsub c0 (List.mem_cons_self c0 rest)
    have hfind := findConnection_eq_of_mem h c0 hc0mem hhnodup
    simp only [List.map_cons, List.nodup_cons] at hlnodup
    have hstep : disposeStep (h, cs) c0 =
        ((h.deleteConnection c0.server.name (some c0.server.source)).1,
         cs ++ (h.deleteConnection c0.server.name (some c0.server.source)).2) := rfl
    rcases List.mem_cons.mp hc with hc1 | hc2
    · -- c is the head: its transport close is invoked by this step
      subst hc1
      have hclosed : tid ∈ (h.deleteConnection c.server.name (some c.server.source)).2 := by
        cases hok : c.transport.closeSucceeds with
        | true =>
          rw [deleteConnection_of_close_ok hfind hok, htr]
          simp [Transport.closeInvocations]
        | false =>
          rw [deleteConnection_of_close_fail hfind hok, htr]
          simp [Transport.closeInvocations]
      have hmem3 : tid ∈ (disposeStep (h, cs) c).2 := by
        rw [hstep]
        exact List.mem_append_right _ hclosed
      rw [List.foldl_cons]
      exact foldl_dispose_closed_mono rest (disposeStep (h, cs) c) tid hmem3
    · -- c is in the tail: the step preserves its membership and key-nodup
      have hsub2 := deleteConnection_sublist h c0.server.name (some c0.server.source)
      have hnodup2 : (((h.deleteConnection c0.server.name (some c0.server.source)).1).connections.map connKey).Nodup :=
        List.Nodup.sublist (hsub2.map connKey) hhnodup
      have hmem2 : ∀ d ∈ rest, d ∈ ((h.deleteConnection c0.server.name (some c0.server.source)).1).connections := by
        intro d hd
        have hdmem : d ∈ h.connections := hsub d (List.mem_cons_of_mem c0 hd)
        have hdkey : connKey d ≠ connKey c0 := by
          intro hk
          exact hlnodup.1 (hk ▸ List.mem_map_of_mem connKey hd)
        cases hf : h.findConnection c0.server.name (some c0.server.source) with
        | none => rw [deleteConnection_of_find_none hf]; exact hdmem
        | some e =>
          cases hok : e.transport.closeSucceeds with
          | false => rw [deleteConnection_of_close_fail hf hok]; exact hdmem
          | true =>
            rw [deleteConnection_of_close_ok hf hok]
            have hkeep : keepPred c0.server.name (some c0.server.source) d = true := by
              simp only [keepPred]
              by_cases h1 : d.server.name = c0.server.name
              · by_cases h2 : d.server.source = c0.server.source
                · exact absurd (by simp [connKey, h1, h2] : connKey d = connKey c0) hdkey
                · simp [h1, h2]
              · simp [h1]
            exact List.mem_filter.mpr ⟨hdmem, hkeep⟩
      have := ih ((h.deleteConnection c0.server.name (some c0.server.source)).1)
        (cs ++ (h.deleteConnection c0.server.name (some c0.server.source)).2)
        hlnodup.2 hnodup2 hmem2 c hc2 tid ok htr
      rw [List.foldl_cons, hstep]
      exact this

/-- `dispose` invokes `close()` on every real transport of a hub whose
connection keys are pairwise distinct. -/
lemma dispose_closes_real (hub : McpHub)
    (hnodup : (hub.connections.map connKey).Nodup) :
    ∀ c ∈ hub.connections, ∀ tid ok, c.transport = .real tid ok →
      tid ∈ hub.dispose.2 := by
  intro c hc tid ok htr
  have := dispose_fold_closes hub.connections hub [] hnodup hnodup
    (fun d hd => hd) c hc tid ok htr
  simpa [McpHub.dispose] using this


lemma getInstance_creates (st : ManagerState) (p : Provider) (fh : McpHub)
    (hh : st.hubInstance = none) :
    (McpServerManager.getInstance st p fh).hubInstance = some fh ∧
    (McpServerManager.getInstance st p fh).configWatcher = true := by
  unfold McpServerManager.getInstance
  simp [hh]

lemma unregister_cleanup (st : ManagerState) (q : Provider)
    (h : st.refCount - 1 ≤ 0) :
    McpServerManager.unregisterProvider st q =
      ({ hubInstance := none, providers := [], refCount := 0,
         configWatcher := false, initialized := false },
       match st.hubInstance with
       | some h0 => h0.dispose.2
       | none => []) := by
  unfold McpServerManager.unregisterProvider McpServerManager.cleanup
  simp [h]

/-- C5: starting from a fresh manager, N `getInstance` calls followed by N−1
`unregisterProvider` calls leave the shared instance non-null; the Nth
unregistration performs the full teardown — `close()` is invoked on every
connection transport (for the hub built at the first registration, whose
connection keys are pairwise distinct), the config watcher is closed, the
provider set cleared, the reference count reset to zero, and the instance
nulled — and a subsequent `getInstance` builds a fresh hub from scratch. -/
theorem C5_refcount_lifecycle
    (ps : List Provider) (hps : 1 ≤ ps.length)
    (qs : List Provider) (hqs : qs.length + 1 = ps.length)
    (h0 : McpHub) (hkeys : (h0.connections.map connKey).Nodup)
    (q p2 : Provider) (h1 : McpHub) :
    (runUnregs (runGets ManagerState.fresh ps h0) qs).hubInstance = some h0 ∧
    (McpServerManager.unregisterProvider
      (runUnregs (runGets ManagerState.fresh ps h0) qs) q).1.hubInstance = none ∧
    (McpServerManager.unregisterProvider
      (runUnregs (runGets ManagerState.fresh ps h0) qs) q).1.providers = [] ∧
    (McpServerManager.unregisterProvider
      (runUnregs (runGets ManagerState.fresh ps h0) qs) q).1.refCount = 0 ∧
    (McpServerManager.unregisterProvider
      (runUnregs (runGets ManagerState.fresh ps h0) qs) q).1.configWatcher = false ∧
    (∀ c ∈ h0.connections, ∀ tid ok, c.transport = Transport.real tid ok →
      tid ∈ (McpServerManager.unregisterProvider
        (runUnregs (runGets ManagerState.fresh ps h0) qs) q).2) ∧
    (McpServerManager.getInstance
      (McpServerManager.unregisterProvider
        (runUnregs (runGets ManagerState.fresh ps h0) qs) q).1 p2 h1).hubInstance
      = some h1 := by
  obtain ⟨p, ps2, rfl⟩ : ∃ p ps2, ps = p :: ps2 := by
    cases ps with
    | nil => simp at hps
    | cons p ps2 => exact ⟨p, ps2, rfl⟩
  have hfirst : (McpServerManager.getInstance ManagerState.fresh p h0).hubInstance = some h0 :=
    (getInstance_creates ManagerState.fresh p h0 rfl).1
  have hgets : runGets ManagerState.fresh (p :: ps2) h0 =
      runGets (McpServerManager.getInstance ManagerState.fresh p h0) ps2 h0 := rfl
  have hInst : (runGets ManagerState.fresh (p :: ps2) h0).hubInstance = some h0 := by
    rw [hgets]
    exact (runGets_keeps ps2 _ h0 h0 hfirst).1
  have hRef : (runGets ManagerState.fresh (p :: ps2) h0).refCount = (p :: ps2).length := by
    rw [runGets_refCount]
    simp [ManagerState.fresh]
  have hlt : ((qs.length : Int) < (runGets ManagerState.fresh (p :: ps2) h0).refCount) := by
    rw [hRef]
    have : qs.length < (p :: ps2).length := by omega
    exact_mod_cast this
  have halive := runUnregs_alive qs _ hlt
  have hs2Inst : (runUnregs (runGets ManagerState.fresh (p :: ps2) h0) qs).hubInstance = some h0 :=
    halive.2.1.trans hInst
  have hs2Ref : (runUnregs (runGets ManagerState.fresh (p :: ps2) h0) qs).refCount = 1 := by
    rw [halive.1, hRef]
    omega
  have hfin := unregister_cleanup (runUnregs (runGets ManagerState.fresh (p :: ps2) h0) qs) q
    (by rw [hs2Ref]; omega)
  refine ⟨hs2Inst, ?_, ?_, ?_, ?_, ?_, ?_⟩
  · rw [hfin]
  · rw [hfin]
  · rw [hfin]
  · rw [hfin]
  · intro c hc tid ok htr
    rw [hfin]
    simp only [hs2Inst]
    exact dispose_closes_real h0 hkeys c hc tid ok htr
  · rw [hfin]
    exact (getInstance_creates _ p2 h1 rfl).1

/-- A hub with one connected server, as left by the constructor. -/
def c5hub : McpHub :=
  (emptyHub.connectToServer "srv" sampleConfig .global (.success 7 true)).1

/-- Witness for C5: two registrations, one unregistration keeps the instance;
the second unregistration tears everything down. -/
theorem C5_witness :
    1 ≤ (["p1", "p2"] : List Provider).length ∧
    (["p1"] : List Provider).length + 1 = (["p1", "p2"] : List Provider).length ∧
    (c5hub.connections.map connKey).Nodup ∧
    ((runUnregs (runGets ManagerState.fresh ["p1", "p2"] c5hub) ["p1"]).hubInstance = some c5hub ∧
     (McpServerManager.unregisterProvider
       (runUnregs (runGets ManagerState.fresh ["p1", "p2"] c5hub) ["p1"]) "p2").1.hubInstance = none ∧
     (McpServerManager.unregisterProvider
       (runUnregs (runGets ManagerState.fresh ["p1", "p2"] c5hub) ["p1"]) "p2").1.providers = [] ∧
     (McpServerManager.unregisterProvider
       (runUnregs (runGets ManagerState.fresh ["p1", "p2"] c5hub) ["p1"]) "p2").1.refCount = 0 ∧
     (McpServerManager.unregisterProvider
       (runUnregs (runGets ManagerState.fresh ["p1", "p2"] c5hub) ["p1"]) "p2").1.configWatcher = false ∧
     (∀ c ∈ c5hub.connections, ∀ tid ok, c.transport = Transport.real tid ok →
       tid ∈ (McpServerManager.unregisterProvider
         (runUnregs (runGets ManagerState.fresh ["p1", "p2"] c5hub) ["p1"]) "p2").2) ∧
     (McpServerManager.getInstance
       (McpServerManager.unregisterProvider
         (runUnregs (runGets ManagerState.fresh ["p1", "p2"] c5hub) ["p1"]) "p2").1 "p3"
       emptyHub).hubInstance = some emptyHub) :=
  ⟨by decide, by decide, by decide,
   C5_refcount_lifecycle ["p1", "p2"] (by decide) ["p1"] (by decide) c5hub (by decide)
     "p2" "p3" emptyHub⟩

/-- C10: `unregisterProvider` decrements the reference counter
unconditionally — the statement quantifies over every state and every
provider, registered or not — and teardown runs whenever the decremented
counter is zero or below; consequently a single unmatched call made while a
registered consumer still holds the hub disposes and nulls the shared
instance. -/
theorem C10_unregister_decrements_unconditionally (st : ManagerState) (p : Provider) :
    (0 < st.refCount - 1 →
      (McpServerManager.unregisterProvider st p).1.refCount = st.refCount - 1 ∧
      (McpServerManager.unregisterProvider st p).1.hubInstance = st.hubInstance) ∧
    (st.refCount - 1 ≤ 0 →
      (McpServerManager.unregisterProvider st p).1.hubInstance = none ∧
      (McpServerManager.unregisterProvider st p).1.refCount = 0 ∧
      (McpServerManager.unregisterProvider st p).1.providers = [] ∧
      (McpServerManager.unregisterProvider st p).1.configWatcher = false) ∧
    (∀ (pA : Provider) (h0 : McpHub), p ≠ pA →
      pA ∈ (McpServerManager.getInstance ManagerState.fresh pA h0).providers ∧
      (McpServerManager.getInstance ManagerState.fresh pA h0).hubInstance = some h0 ∧
      (McpServerManager.unregisterProvider
        (McpServerManager.getInstance ManagerState.fresh pA h0) p).1.hubInstance = none) := by
  refine ⟨?_, ?_, ?_⟩
  · intro h
    rw [unregister_alive st p h]
    exact ⟨rfl, rfl⟩
  · intro h
    rw [unregister_cleanup st p h]
    exact ⟨rfl, rfl, rfl, rfl⟩
  · intro pA h0 hne
    have hcreate := getInstance_creates ManagerState.fresh pA h0 rfl
    have hRef : (McpServerManager.getInstance ManagerState.fresh pA h0).refCount = 1 := by
      rw [getInstance_refCount]
      rfl
    refine ⟨?_, hcreate.1, ?_⟩
    · unfold McpServerManager.getInstance
      simp [ManagerState.fresh, providersAdd]
    · rw [unregister_cleanup _ p (by rw [hRef]; omega)]

/-- A manager state with two registered consumers. -/
def c10state : ManagerState :=
  { hubInstance := some emptyHub, providers := ["a", "b"], refCount := 2,
    configWatcher := true, initialized := true }

/-- Witness for C10: the decrement applies for the never-registered provider
"q", and a single unmatched unregistration by "q" while "pA" holds the hub
nulls the instance. -/
theorem C10_witness :
    ((McpServerManager.unregisterProvider c10state "q").1.refCount = c10state.refCount - 1 ∧
     (McpServerManager.unregisterProvider c10state "q").1.hubInstance = c10state.hubInstance) ∧
    ("pA" ∈ (McpServerManager.getInstance ManagerState.fresh "pA" emptyHub).providers ∧
     (McpServerManager.getInstance ManagerState.fresh "pA" emptyHub).hubInstance = some emptyHub ∧
     (McpServerManager.unregisterProvider
       (McpServerManager.getInstance ManagerState.fresh "pA" emptyHub) "q").1.hubInstance = none) :=
  ⟨(C10_unregister_decrements_unconditionally c10state "q").1 (by decide),
   (C10_unregister_decrements_unconditionally c10state "q").2.2 "pA" emptyHub (by decide)⟩

/-! ### C7: cache invalidation on connect/disconnect -/

/-- Tools oracle for the C7 scenario. -/
def c7oracle : String → McpServerSource → Except String (Option (List RawTool)) :=
  fun _ _ => .ok (some [{ id := "t", name := none, description := none,
                          inputSchema := none, outputSchema := none }])

/-- C7 scenario: a hub with one connected server and a populated tools cache
(`lastCacheUpdate = 1000`). -/
def c7hub : McpHub :=
  (((emptyHub.connectToServer "a" sampleConfig .global (.success 1 true)).1).aggregateTools
    1000 c7oracle).2

/-- C7 counterexample: `connectToServer` for a fresh name "b" whose connect
attempt fails (the `catch` path) returns with the cached tools still set and
the cache timestamp still 1000 — `invalidateCache` was not called. -/
theorem C7_counterexample :
    ((c7hub.connectToServer "b" sampleConfig2 .global (.failure "spawn failed")).1).cachedTools.isSome
      = true ∧
    ((c7hub.connectToServer "b" sampleConfig2 .global (.failure "spawn failed")).1).lastCacheUpdate
      = 1000 :=
  ⟨rfl, rfl⟩

/-- C7 amended: `connectToServer` calls `invalidateCache` on its success path
(cache fields cleared, timestamp zero); on its failure path it leaves the
cache exactly as the initial `deleteConnection` left it, and
`deleteConnection` invalidates the cache precisely when it finds a matching
connection and the transport `close()` does not throw — when the close
throws, or no connection matches, the hub (cache included) is unchanged. -/
theorem C7_invalidate_on_connect_disconnect
    (hub : McpHub) (n : String) (cfg : McpServerConfig) (s : McpServerSource) :
    (∀ tid ok,
      ((hub.connectToServer n cfg s (.success tid ok)).1).cachedTools = none ∧
      ((hub.connectToServer n cfg s (.success tid ok)).1).cachedResources = none ∧
      ((hub.connectToServer n cfg s (.success tid ok)).1).cachedPrompts = none ∧
      ((hub.connectToServer n cfg s (.success tid ok)).1).lastCacheUpdate = 0) ∧
    (∀ msg,
      ((hub.connectToServer n cfg s (.failure msg)).1).cachedTools =
        ((hub.deleteConnection n (some s)).1).cachedTools ∧
      ((hub.connectToServer n cfg s (.failure msg)).1).cachedResources =
        ((hub.deleteConnection n (some s)).1).cachedResources ∧
      ((hub.connectToServer n cfg s (.failure msg)).1).cachedPrompts =
        ((hub.deleteConnection n (some s)).1).cachedPrompts ∧
      ((hub.connectToServer n cfg s (.failure msg)).1).lastCacheUpdate =
        ((hub.deleteConnection n (some s)).1).lastCacheUpdate) ∧
    (∀ (src : Option McpServerSource),
      (hub.findConnection n src = none → (hub.deleteConnection n src).1 = hub) ∧
      (∀ conn, hub.findConnection n src = some conn →
        (conn.transport.closeSucceeds = true →
          ((hub.deleteConnection n src).1).cachedTools = none ∧
          ((hub.deleteConnection n src).1).cachedResources = none ∧
          ((hub.deleteConnection n src).1).cachedPrompts = none ∧
          ((hub.deleteConnection n src).1).lastCacheUpdate = 0) ∧
        (conn.transport.closeSucceeds = false →
          (hub.deleteConnection n src).1 = hub))) := by
  refine ⟨?_, ?_, ?_⟩
  · intro tid ok
    simp [McpHub.connectToServer, McpHub.invalidateCache]
  · intro msg
    simp [McpHub.connectToServer]
  · intro src
    refine ⟨?_, ?_⟩
    · intro hnone
      rw [deleteConnection_of_find_none hnone]
    · intro conn hsome
      refine ⟨?_, ?_⟩
      · intro hok
        rw [deleteConnection_of_close_ok hsome hok]
        exact ⟨rfl, rfl, rfl, rfl⟩
      · intro hfail
        rw [deleteConnection_of_close_fail hsome hfail]

/-- The single connection of `c5hub`-style hubs, written out for the C7
witness. -/
def c7conn : McpConnection :=
  { server := { name := "a", config := sampleConfig, status := .connected,
                disabled := false, source := .global, errors := [] },
    transport := .real 1 true }

/-- Witness for the amended C7 at concrete inputs. -/
theorem C7_witness :
    ((c7hub.connectToServer "a" sampleConfig .global (.success 9 true)).1).cachedTools = none ∧
    c7hub.findConnection "a" (some .global) = some c7conn ∧
    ((c7hub.deleteConnection "a" (some .global)).1).lastCacheUpdate = 0 :=
  ⟨((C7_invalidate_on_connect_disconnect c7hub "a" sampleConfig .global).1 9 true).1,
   by decide,
   ((((C7_invalidate_on_connect_disconnect c7hub "a" sampleConfig .global).2.2
       (some .global)).2 c7conn (by decide)).1 (by decide)).2.2.2⟩


/-! ### C8: the server configuration schema (`createServerTypeSchema`) -/

/-- A raw settings-file entry for one server, before schema validation.
Fields are `none` when absent from the JSON object.  Fields already carry
their primitive types; zod type errors for mistyped primitives are orthogonal
to the verified claims.  `cwd` appears only in the stdio branch of the
schema; the sse branch does not declare it, and `z.object` strips unknown
keys silently. -/
structure RawServerEntry where
  type : Option String
  command : Option String
  args : Option (List String)
  cwd : Option String
  env : Option (List (String × String))
  url : Option String
  headers : Option (List (String × String))
  disabled : Option Bool
  timeout : Option Int
  alwaysAllow : Option (List String)
  watchPaths : Option (List String)
deriving DecidableEq, Repr

/-- `BaseConfigSchema`: `timeout` is optional but must lie in [1, 3600];
`disabled`, `alwaysAllow` and `watchPaths` are typed and unconstrained. -/
def baseConfigOk (r : RawServerEntry) : Bool :=
  match r.timeout with
  | some t => decide (1 ≤ t) && decide (t ≤ 3600)
  | none => true

/-- Models `z.string().url()`.  None of the verified claims depends on the
exact notion of URL validity. -/
def isValidUrl (u : String) : Bool :=
  decide (2 ≤ (u.splitOn "://").length)

/-- The stdio member of the `createServerTypeSchema` union: `type` absent or
"stdio", non-empty `command`, and the sse-only fields `url`/`headers` must be
undefined (`z.undefined().optional()`).  The trailing `.refine` is vacuous
because the `.transform` always sets `type` to "stdio". -/
def stdioConfigOk (r : RawServerEntry) : Bool :=
  (match r.type with
   | none => true
   | some t => t == "stdio") &&
  (match r.command with
   | some c => decide (1 ≤ c.length)
   | none => false) &&
  r.url.isNone && r.headers.isNone && baseConfigOk r

/-- The sse member of the union: `type` absent or "sse", a valid `url`, and
the stdio-only fields `command`/`args`/`env` must be undefined. -/
def sseConfigOk (r : RawServerEntry) : Bool :=
  (match r.type with
   | none => true
   | some t => t == "sse") &&
  (match r.url with
   | some u => isValidUrl u
   | none => false) &&
  r.command.isNone && r.args.isNone && r.env.isNone && baseConfigOk r

/-- Whether `ServerConfigSchema` (= `createServerTypeSchema()`, a `z.union`
of the two members) accepts the raw entry. -/
def serverConfigSchemaAccepts (r : RawServerEntry) : Bool :=
  stdioConfigOk r || sseConfigOk r

/-- Sanity check (not a claim): a plain stdio entry is accepted. -/
lemma stdio_entry_accepted :
    serverConfigSchemaAccepts
      { type := none, command := some "echo", args := some ["x"], cwd := none,
        env := none, url := none, headers := none, disabled := none,
        timeout := some 60, alwaysAllow := none, watchPaths := none } = true := by
  decide

/-- C8: every configuration entry mixing subprocess-only fields with
stream-only fields is rejected: both `command` and `url` present, or
`headers` together with `command`, or `args`/`env` together with `url`, all
make both union members fail. -/
theorem C8_mixed_config_rejected (r : RawServerEntry)
    (h : (r.command.isSome = true ∧ r.url.isSome = true) ∨
         (r.command.isSome = true ∧ r.headers.isSome = true) ∨
         (r.url.isSome = true ∧ (r.args.isSome = true ∨ r.env.isSome = true))) :
    serverConfigSchemaAccepts r = false := by
  unfold serverConfigSchemaAccepts stdioConfigOk sseConfigOk
  rcases h with ⟨hc, hu⟩ | ⟨hc, hh⟩ | ⟨hu, hae⟩
  · obtain ⟨c, hc⟩ := Option.isSome_iff_exists.mp hc
    obtain ⟨u, hu⟩ := Option.isSome_iff_exists.mp hu
    simp [hc, hu]
  · obtain ⟨c, hc⟩ := Option.isSome_iff_exists.mp hc
    obtain ⟨hd, hh⟩ := Option.isSome_iff_exists.mp hh
    simp [hc, hh]
  · obtain ⟨u, hu⟩ := Option.isSome_iff_exists.mp hu
    rcases hae with ha | he
    · obtain ⟨a, ha⟩ := Option.isSome_iff_exists.mp ha
      simp [hu, ha]
    · obtain ⟨e, he⟩ := Option.isSome_iff_exists.mp he
      simp [hu, he]

/-- Witness for C8: an entry with both `command` and `url` is rejected. -/
theorem C8_witness :
    (({ type := none, command := some "echo", args := none, cwd := none,
        env := none, url := some "http://localhost:1234", headers := none,
        disabled := none, timeout := none, alwaysAllow := none,
        watchPaths := none } : RawServerEntry).command.isSome = true ∧
     ({ type := none, command := some "echo", args := none, cwd := none,
        env := none, url := some "http://localhost:1234", headers := none,
        disabled := none, timeout := none, alwaysAllow := none,
        watchPaths := none } : RawServerEntry).url.isSome = true) ∧
    serverConfigSchemaAccepts
      { type := none, command := some "echo", args := none, cwd := none,
        env := none, url := some "http://localhost:1234", headers := none,
        disabled := none, timeout := none, alwaysAllow := none,
        watchPaths := none } = false :=
  ⟨⟨rfl, rfl⟩,
   C8_mixed_config_rejected _ (Or.inl ⟨rfl, rfl⟩)⟩


/-! ### The MCPClientManager validation layer (client-manager.mts)

`createZodSchema` translates a JSON-schema value (itself JSON) into a zod
validator; `validateToolArgs` runs it.  The zod library is external to the
repository; its parse behaviour is modelled here: type mismatches and failed
checks produce issues carrying a path and a message (a missing required
object key yields the message "Required" at that key's path), `z.object`
strips unknown keys silently, and `.optional()` keys may be absent.  Regular
expression matching (`z.string().regex`) is abstracted as an explicit
`regexTest` argument. -/

mutual

/-- A computable structural size for JSON values, used as parser fuel. -/
def Json.size : Json → Nat
  | .null => 1
  | .bool _ => 1
  | .num _ => 1
  | .str _ => 1
  | .arr items => 1 + Json.sizeList items
  | .obj fields => 1 + Json.sizeFields fields

/-- Size of a JSON array body. -/
def Json.sizeList : List Json → Nat
  | [] => 0
  | j :: js => Json.size j + Json.sizeList js

/-- Size of a JSON object body. -/
def Json.sizeFields : List (String × Json) → Nat
  | [] => 0
  | kv :: kvs => Json.size kv.2 + Json.sizeFields kvs

end

/-- One zod validation issue. -/
structure ZodIssue where
  path : List String
  message : String
deriving DecidableEq, Repr

/-- The zod validators produced by `createZodSchema`: exactly the
combinators the source uses.  In `objT`, the boolean is true when the
property is optional. -/
inductive ZodType where
  | strT (pattern : Option String) (minLength : Option Int) (maxLength : Option Int)
  | enumT (values : List String)
  | numT (isInt : Bool) (minimum : Option Int) (maximum : Option Int)
  | boolT
  | nullT
  | arrT (item : ZodType)
  | objT (fields : List (String × ZodType × Bool))
  | anyT

/-- JavaScript truthiness on a JSON value (with `null` also standing for
`undefined`). -/
def Json.isFalsy : Json → Bool
  | .null => true
  | .bool b => !b
  | .num n => decide (n = 0)
  | .str s => s == ""
  | .arr _ => false
  | .obj _ => false

/-- JavaScript `a || b` on JSON values. -/
def jTruthyOr (a : Option Json) (b : Json) : Json :=
  match a with
  | some j => if j.isFalsy then b else j
  | none => b

/-- `schema.properties || {}` as an association list (a non-object
`properties` value contributes no entries). -/
def schemaProps (schema : Json) : List (String × Json) :=
  match jTruthyOr (jget schema "properties") (Json.obj []) with
  | Json.obj kvs => kvs
  | _ => []

/-- The declared property names of an object schema. -/
def declaredProps (schema : Json) : List String :=
  (schemaProps schema).map Prod.fst

/-- The names listed in `schema.required` when it is an array (`z.enum`-style
membership tests use string equality, so only string entries can match). -/
def requiredNames (schema : Json) : List String :=
  match jget schema "required" with
  | some (Json.arr req) =>
    req.filterMap (fun j =>
      match j with
      | Json.str s => some s
      | _ => none)
  | _ => []

/-- `schema.pattern` when truthy and a string. -/
def schemaPattern (schema : Json) : Option String :=
  match jget schema "pattern" with
  | some (Json.str p) => if p == "" then none else some p
  | _ => none

/-- An integer-valued schema field such as `minLength` or `maximum`
(`!== undefined` presence check). -/
def schemaIntField (schema : Json) (k : String) : Option Int :=
  match jget schema k with
  | some (Json.num n) => some n
  | _ => none

/-- `schema.enum` when present and an array: the string values. -/
def schemaEnum (schema : Json) : Option (List String) :=
  match jget schema "enum" with
  | some (Json.arr vs) =>
    some (vs.filterMap (fun j =>
      match j with
      | Json.str s => some s
      | _ => none))
  | _ => none

/-- `MCPClientManager.createZodSchema`, with explicit fuel (any fuel at
least the schema nesting depth gives the same result; the wrapper below
passes `sizeOf schema + 1`).  Falsy schemas, unrecognized `type` values and
exhausted fuel fall back to `z.any()`. -/
def createZodSchemaFuel : Nat → Json → ZodType
  | 0, _ => .anyT
  | n + 1, schema =>
    if schema.isFalsy then .anyT
    else
      match jget schema "type" with
      | some (Json.str "string") =>
        (match schemaEnum schema with
         | some vs => .enumT vs
         | none =>
           .strT (schemaPattern schema) (schemaIntField schema "minLength")
             (schemaIntField schema "maxLength"))
      | some (Json.str "number") =>
        .numT false (schemaIntField schema "minimum") (schemaIntField schema "maximum")
      | some (Json.str "integer") =>
        .numT true (schemaIntField schema "minimum") (schemaIntField schema "maximum")
      | some (Json.str "boolean") => .boolT
      | some (Json.str "null") => .nullT
      | some (Json.str "array") =>
        .arrT (createZodSchemaFuel n (jTruthyOr (jget schema "items") (Json.obj [])))
      | some (Json.str "object") =>
        .objT ((schemaProps schema).map (fun kv =>
          (kv.1, createZodSchemaFuel n kv.2, !(requiredNames schema).contains kv.1)))
      | _ => .anyT

/-- `createZodSchema` at sufficient fuel. -/
def createZodSchema (schema : Json) : ZodType :=
  createZodSchemaFuel (schema.size + 1) schema

mutual

/-- A computable structural size for zod validators, used as parser fuel. -/
def ZodType.size : ZodType → Nat
  | .strT _ _ _ => 1
  | .enumT _ => 1
  | .numT _ _ _ => 1
  | .boolT => 1
  | .nullT => 1
  | .arrT item => 1 + ZodType.size item
  | .objT fields => 1 + ZodType.sizeFields fields
  | .anyT => 1

/-- Size of an object validator's field list. -/
def ZodType.sizeFields : List (String × ZodType × Bool) → Nat
  | [] => 0
  | f :: fs => ZodType.size f.2.1 + ZodType.sizeFields fs

end

/-- The JavaScript `typeof`-style name zod reports for a received value. -/
def typeName : Json → String
  | .null => "null"
  | .bool _ => "boolean"
  | .num _ => "number"
  | .str _ => "string"
  | .arr _ => "array"
  | .obj _ => "object"

/-- Prefix every issue path with an object key or array index. -/
def prefixIssues (k : String) (issues : List ZodIssue) : List ZodIssue :=
  issues.map (fun i => { i with path := k :: i.path })

/-- Key lookup in a JSON object association list. -/
def lookupField (kvs : List (String × Json)) (k : String) : Option Json :=
  (kvs.find? (fun kv => kv.1 == k)).map Prod.snd

/-- `schema.parse(value)` for the modelled zod validators: `.ok` with the
parsed value (unknown object keys stripped) or `.error` with every issue
found.  JSON numbers are integers in the embedding, so `z.number().int()`
never fails.  `regexTest pattern s` decides `new RegExp(pattern).test(s)`. -/
def zodParseFuel (regexTest : String → String → Bool) : Nat → ZodType → Json →
    Except (List ZodIssue) Json
  | 0, _, v => .ok v
  | n + 1, t, v =>
    match t with
    | .anyT => .ok v
    | .strT pat mn mx =>
      match v with
      | Json.str s =>
        let issues :=
          (match pat with
           | some p => if regexTest p s then [] else [{ path := [], message := "Invalid" }]
           | none => []) ++
          (match mn with
           | some m =>
             if decide ((s.length : Int) < m) then
               [{ path := [], message := "String must contain at least " ++ toString m ++ " character(s)" }]
             else []
           | none => []) ++
          (match mx with
           | some m =>
             if decide (m < (s.length : Int)) then
               [{ path := [], message := "String must contain at most " ++ toString m ++ " character(s)" }]
             else []
           | none => [])
        if issues.isEmpty then .ok v else .error issues
      | _ => .error [{ path := [], message := "Expected string, received " ++ typeName v }]
    | .enumT vals =>
      match v with
      | Json.str s =>
        if vals.contains s then .ok v
        else .error [{ path := [], message := "Invalid enum value" }]
      | _ => .error [{ path := [], message := "Invalid enum value" }]
    | .numT _ mn mx =>
      match v with
      | Json.num x =>
        let issues :=
          (match mn with
           | some m =>
             if decide (x < m) then
               [{ path := [], message := "Number must be greater than or equal to " ++ toString m }]
             else []
           | none => []) ++
          (match mx with
           | some m =>
             if decide (m < x) then
               [{ path := [], message := "Number must be less than or equal to " ++ toString m }]
             else []
           | none => [])
        if issues.isEmpty then .ok v else .error issues
      | _ => .error [{ path := [], message := "Expected number, received " ++ typeName v }]
    | .boolT =>
      match v with
      | Json.bool _ => .ok v
      | _ => .error [{ path := [], message := "Expected boolean, received " ++ typeName v }]
    | .nullT =>
      match v with
      | Json.null => .ok v
      | _ => .error [{ path := [], message := "Expected null, received " ++ typeName v }]
    | .arrT item =>
      match v with
      | Json.arr items =>
        let parsed := items.enum.map (fun p => (p.1, zodParseFuel regexTest n item p.2))
        let issues := parsed.foldr
          (fun p acc =>
            match p.2 with
            | .error is => prefixIssues (toString p.1) is ++ acc
            | .ok _ => acc) []
        if issues.isEmpty then
          .ok (Json.arr (parsed.filterMap (fun p =>
            match p.2 with
            | .ok w => some w
            | .error _ => none)))
        else .error issues
      | _ => .error [{ path := [], message := "Expected array, received " ++ typeName v }]
    | .objT fields =>
      match v with
      | Json.obj kvs =>
        let r := fields.foldr
          (fun (f : String × ZodType × Bool) (acc : List (String × Json) × List ZodIssue) =>
            match lookupField kvs f.1 with
            | none =>
              if f.2.2 then acc
              else (acc.1, { path := [f.1], message := "Required" } :: acc.2)
            | some w =>
              match zodParseFuel regexTest n f.2.1 w with
              | .ok w2 => ((f.1, w2) :: acc.1, acc.2)
              | .error is => (acc.1, prefixIssues f.1 is ++ acc.2))
          ([], [])
        if r.2.isEmpty then .ok (Json.obj r.1) else .error r.2
      | _ => .error [{ path := [], message := "Expected object, received " ++ typeName v }]

/-- `parse` at sufficient fuel. -/
def zodParse (regexTest : String → String → Bool) (t : ZodType) (v : Json) :
    Except (List ZodIssue) Json :=
  zodParseFuel regexTest (t.size + 1) t v

/-- An MCP tool as discovered by `MCPClientManager` (client-manager.mts). -/
structure MCPTool where
  serverId : String
  name : String
  description : Option String
  inputSchema : Json

/-- `err.path.join(".") + ": " + err.message`, joined by ", ". -/
def formatZodIssues (issues : List ZodIssue) : String :=
  String.intercalate ", "
    (issues.map (fun i => String.intercalate "." i.path ++ ": " ++ i.message))

/-- `MCPClientManager.validateToolArgs`: build the validator from the tool's
input schema, parse, and on failure throw an `Error` whose message lists
every failing field as `path: message` joined by commas.  The thrown
exception is the `.error` branch. -/
def validateToolArgs (regexTest : String → String → Bool) (tool : MCPTool)
    (args : Json) : Except String Json :=
  match zodParse regexTest (createZodSchema tool.inputSchema) args with
  | .ok v => .ok v
  | .error issues =>
    .error ("Invalid arguments for tool " ++ tool.name ++ ": " ++ formatZodIssues issues)

/-- Result of one `MCPClientManager.callTool` invocation: `outcome.error`
models a thrown exception (this `callTool` rethrows; it never converts
errors into a returned value), `transportContacted` records whether
`client.callTool` was invoked, and `dispatched` the argument payload sent. -/
structure MCPCallTrace where
  outcome : Except String Json
  transportContacted : Bool
  dispatched : Option Json

/-- `result.isError` truthy check on the remote reply. -/
def jsonIsErrorFlag (j : Json) : Bool :=
  match jget j "isError" with
  | some v => !v.isFalsy
  | none => false

/-- `result.content[0].text` when present and textual, else "Unknown error". -/
def firstTextContent (j : Json) : String :=
  match jget j "content" with
  | some (Json.arr (c0 :: _)) =>
    (match jget c0 "text" with
     | some (Json.str t) => t
     | _ => "Unknown error")
  | _ => "Unknown error"

/-- `MCPClientManager.callTool(serverId, toolName, args)`.  `connections` is
the set of connected server ids, `tools` the discovered tool list, `remote`
the behaviour of `client.callTool(toolName, validatedArgs)`.  Missing
connection, missing tool, validation failure, transport exceptions and
remote `isError` replies all throw (are `.error` outcomes); only validation
happens before the transport is contacted. -/
def MCPClientManager.callTool (connections : List String) (tools : List MCPTool)
    (regexTest : String → String → Bool) (remote : Json → Except String Json)
    (serverId toolName : String) (args : Json) : MCPCallTrace :=
  if connections.contains serverId then
    match tools.find? (fun t => t.serverId == serverId && t.name == toolName) with
    | none =>
      { outcome := .error ("Tool " ++ toolName ++ " not found on server " ++ serverId),
        transportContacted := false, dispatched := none }
    | some tool =>
      match validateToolArgs regexTest tool args with
      | .error msg =>
        { outcome := .error msg, transportContacted := false, dispatched := none }
      | .ok validated =>
        match remote validated with
        | .error e =>
          { outcome := .error e, transportContacted := true, dispatched := some validated }
        | .ok result =>
          if jsonIsErrorFlag result then
            { outcome := .error ("Tool error: " ++ firstTextContent result),
              transportContacted := true, dispatched := some validated }
          else
            { outcome := .ok result, transportContacted := true, dispatched := some validated }
  else
    { outcome := .error ("No connection to MCP server " ++ serverId),
      transportContacted := false, dispatched := none }


/-- The per-field step of the object-validator parse (the inline fold body of
`zodParseFuel` at `objT`), named for the proofs below. -/
def zodFieldStep (regexTest : String → String → Bool) (n : Nat)
    (kvs : List (String × Json)) (f : String × ZodType × Bool)
    (acc : List (String × Json) × List ZodIssue) :
    List (String × Json) × List ZodIssue :=
  match lookupField kvs f.1 with
  | none =>
    if f.2.2 then acc
    else (acc.1, { path := [f.1], message := "Required" } :: acc.2)
  | some w =>
    match zodParseFuel regexTest n f.2.1 w with
    | .ok w2 => ((f.1, w2) :: acc.1, acc.2)
    | .error is => (acc.1, prefixIssues f.1 is ++ acc.2)

lemma zodParse_objT_eq (regexTest : String → String → Bool)
    (fields : List (String × ZodType × Bool)) (kvs : List (String × Json)) :
    zodParse regexTest (.objT fields) (Json.obj kvs) =
      (if (fields.foldr (zodFieldStep regexTest (ZodType.objT fields).size kvs) ([], [])).2.isEmpty
       then .ok (Json.obj
         (fields.foldr (zodFieldStep regexTest (ZodType.objT fields).size kvs) ([], [])).1)
       else .error
         (fields.foldr (zodFieldStep regexTest (ZodType.objT fields).size kvs) ([], [])).2) :=
  rfl

lemma zodFieldStep_skip (regexTest : String → String → Bool) (n : Nat)
    (kvs : List (String × Json)) (f : String × ZodType × Bool)
    (hl : lookupField kvs f.1 = none) (hopt : f.2.2 = true)
    (acc : List (String × Json) × List ZodIssue) :
    zodFieldStep regexTest n kvs f acc = acc := by
  unfold zodFieldStep
  rw [hl]
  simp [hopt]

lemma zodFieldStep_required (regexTest : String → String → Bool) (n : Nat)
    (kvs : List (String × Json)) (f : String × ZodType × Bool)
    (hl : lookupField kvs f.1 = none) (hopt : f.2.2 = false)
    (acc : List (String × Json) × List ZodIssue) :
    zodFieldStep regexTest n kvs f acc =
      (acc.1, { path := [f.1], message := "Required" } :: acc.2) := by
  unfold zodFieldStep
  rw [hl]
  simp [hopt]

lemma zodFieldStep_ok (regexTest : String → String → Bool) (n : Nat)
    (kvs : List (String × Json)) (f : String × ZodType × Bool) (w w2 : Json)
    (hl : lookupField kvs f.1 = some w)
    (hp : zodParseFuel regexTest n f.2.1 w = .ok w2)
    (acc : List (String × Json) × List ZodIssue) :
    zodFieldStep regexTest n kvs f acc = ((f.1, w2) :: acc.1, acc.2) := by
  unfold zodFieldStep
  rw [hl]
  simp [hp]

lemma zodFieldStep_err (regexTest : String → String → Bool) (n : Nat)
    (kvs : List (String × Json)) (f : String × ZodType × Bool) (w : Json)
    (is : List ZodIssue) (hl : lookupField kvs f.1 = some w)
    (hp : zodParseFuel regexTest n f.2.1 w = .error is)
    (acc : List (String × Json) × List ZodIssue) :
    zodFieldStep regexTest n kvs f acc = (acc.1, prefixIssues f.1 is ++ acc.2) := by
  unfold zodFieldStep
  rw [hl]
  simp [hp]

lemma zodFieldStep_cases (regexTest : String → String → Bool) (n : Nat)
    (kvs : List (String × Json)) (f : String × ZodType × Bool)
    (acc : List (String × Json) × List ZodIssue) :
    zodFieldStep regexTest n kvs f acc = acc ∨
    zodFieldStep regexTest n kvs f acc =
      (acc.1, { path := [f.1], message := "Required" } :: acc.2) ∨
    (∃ w2, zodFieldStep regexTest n kvs f acc = ((f.1, w2) :: acc.1, acc.2)) ∨
    (∃ is, zodFieldStep regexTest n kvs f acc = (acc.1, prefixIssues f.1 is ++ acc.2)) := by
  cases hl : lookupField kvs f.1 with
  | none =>
    cases hopt : f.2.2 with
    | true => exact Or.inl (zodFieldStep_skip regexTest n kvs f hl hopt acc)
    | false => exact Or.inr (Or.inl (zodFieldStep_required regexTest n kvs f hl hopt acc))
  | some w =>
    cases hp : zodParseFuel regexTest n f.2.1 w with
    | ok w2 =>
      exact Or.inr (Or.inr (Or.inl ⟨w2, zodFieldStep_ok regexTest n kvs f w w2 hl hp acc⟩))
    | error is =>
      exact Or.inr (Or.inr (Or.inr ⟨is, zodFieldStep_err regexTest n kvs f w is hl hp acc⟩))

lemma foldFields_keys_subset (regexTest : String → String → Bool) (n : Nat)
    (kvs : List (String × Json)) (fields : List (String × ZodType × Bool)) :
    ∀ k ∈ ((fields.foldr (zodFieldStep regexTest n kvs) ([], [])).1).map Prod.fst,
      k ∈ fields.map (fun f => f.1) := by
  induction fields with
  | nil => simp
  | cons f fs ih =>
    intro k hk
    rw [List.foldr_cons] at hk
    rcases zodFieldStep_cases regexTest n kvs f
        (fs.foldr (zodFieldStep regexTest n kvs) ([], [])) with h | h | ⟨w2, h⟩ | ⟨is, h⟩
    · rw [h] at hk
      exact List.mem_cons_of_mem _ (ih k hk)
    · rw [h] at hk
      exact List.mem_cons_of_mem _ (ih k hk)
    · rw [h] at hk
      simp only [List.map_cons, List.mem_cons] at hk
      rcases hk with hk1 | hk2
      · exact hk1 ▸ List.mem_cons_self _ _
      · exact List.mem_cons_of_mem _ (ih k hk2)
    · rw [h] at hk
      exact List.mem_cons_of_mem _ (ih k hk)

lemma zodFieldStep_issues_mono (regexTest : String → String → Bool) (n : Nat)
    (kvs : List (String × Json)) (f : String × ZodType × Bool)
    (acc : List (String × Json) × List ZodIssue) (i : ZodIssue) (hi : i ∈ acc.2) :
    i ∈ (zodFieldStep regexTest n kvs f acc).2 := by
  rcases zodFieldStep_cases regexTest n kvs f acc with h | h | ⟨w2, h⟩ | ⟨is, h⟩
  · rw [h]; exact hi
  · rw [h]; exact List.mem_cons_of_mem _ hi
  · rw [h]; exact hi
  · rw [h]; exact List.mem_append_right _ hi

lemma foldFields_required (regexTest : String → String → Bool) (n : Nat)
    (kvs : List (String × Json)) (fields : List (String × ZodType × Bool))
    (f0 : String) (t0 : ZodType)
    (hmem : (f0, t0, false) ∈ fields) (hl : lookupField kvs f0 = none) :
    ({ path := [f0], message := "Required" } : ZodIssue) ∈
      (fields.foldr (zodFieldStep regexTest n kvs) ([], [])).2 := by
  induction fields with
  | nil => cases hmem
  | cons f fs ih =>
    rw [List.foldr_cons]
    rcases List.mem_cons.mp hmem with heq | htl
    · rw [← heq,
        zodFieldStep_required regexTest n kvs (f0, t0, false) hl rfl]
      exact List.mem_cons_self _ _
    · exact zodFieldStep_issues_mono regexTest n kvs f _ _ (ih htl)

lemma zodFieldStep_extra_key (regexTest : String → String → Bool) (n : Nat)
    (kvs : List (String × Json)) (k0 : String) (v0 : Json)
    (f : String × ZodType × Bool) (hne : f.1 ≠ k0)
    (acc : List (String × Json) × List ZodIssue) :
    zodFieldStep regexTest n ((k0, v0) :: kvs) f acc = zodFieldStep regexTest n kvs f acc := by
  have hlook : lookupField ((k0, v0) :: kvs) f.1 = lookupField kvs f.1 := by
    unfold lookupField
    rw [List.find?_cons_of_neg]
    intro hbeq
    exact hne (beq_iff_eq.mp hbeq).symm
  unfold zodFieldStep
  rw [hlook]

lemma foldFields_extra_key (regexTest : String → String → Bool) (n : Nat)
    (kvs : List (String × Json)) (k0 : String) (v0 : Json)
    (fields : List (String × ZodType × Bool))
    (hk0 : k0 ∉ fields.map (fun f => f.1)) :
    fields.foldr (zodFieldStep regexTest n ((k0, v0) :: kvs)) ([], []) =
      fields.foldr (zodFieldStep regexTest n kvs) ([], []) := by
  induction fields with
  | nil => rfl
  | cons f fs ih =>
    simp only [List.map_cons, List.mem_cons, not_or] at hk0
    rw [List.foldr_cons, List.foldr_cons, ih hk0.2,
      zodFieldStep_extra_key regexTest n kvs k0 v0 f (fun h => hk0.1 h.symm)]

lemma createZodSchema_object_eq (schema : Json)
    (h : jget schema "type" = some (Json.str "object")) :
    createZodSchema schema = .objT ((schemaProps schema).map (fun kv =>
      (kv.1, createZodSchemaFuel schema.size kv.2,
       !(requiredNames schema).contains kv.1))) := by
  obtain ⟨kvs, rfl⟩ : ∃ kvs, schema = Json.obj kvs := by
    cases schema with
    | obj kvs => exact ⟨kvs, rfl⟩
    | null => simp [jget] at h
    | bool b => simp [jget] at h
    | num x => simp [jget] at h
    | str s2 => simp [jget] at h
    | arr xs => simp [jget] at h
  show createZodSchemaFuel ((Json.obj kvs).size + 1) (Json.obj kvs) = _
  simp only [createZodSchemaFuel]
  rw [h]
  rfl

lemma createZodSchema_object_keys (schema : Json)
    (h : jget schema "type" = some (Json.str "object")) :
    ∃ fields, createZodSchema schema = .objT fields ∧
      fields.map (fun f => f.1) = declaredProps schema := by
  refine ⟨_, createZodSchema_object_eq schema h, ?_⟩
  simp [declaredProps, List.map_map]

lemma zodParse_objT_nonobj_error (regexTest : String → String → Bool)
    (fields : List (String × ZodType × Bool)) (v : Json)
    (hv : ∀ kvs, v ≠ Json.obj kvs) :
    ∀ w, zodParse regexTest (.objT fields) v ≠ .ok w := by
  intro w
  cases v with
  | obj kvs => exact absurd rfl (hv kvs)
  | null => simp [zodParse, zodParseFuel]
  | bool b => simp [zodParse, zodParseFuel]
  | num x => simp [zodParse, zodParseFuel]
  | str s2 => simp [zodParse, zodParseFuel]
  | arr items => simp [zodParse, zodParseFuel]


lemma callTool_no_connection (connections : List String) (tools : List MCPTool)
    (regexTest : String → String → Bool) (remote : Json → Except String Json)
    (serverId toolName : String) (args : Json)
    (hconn : connections.contains serverId = false) :
    MCPClientManager.callTool connections tools regexTest remote serverId toolName args =
      { outcome := .error ("No connection to MCP server " ++ serverId),
        transportContacted := false, dispatched := none } := by
  have hmem : serverId ∉ connections := by simpa using hconn
  unfold MCPClientManager.callTool
  simp [hconn, hmem]

lemma callTool_validate_error (connections : List String) (tools : List MCPTool)
    (regexTest : String → String → Bool) (remote : Json → Except String Json)
    (serverId toolName : String) (args : Json) (tool : MCPTool) (msg : String)
    (hconn : connections.contains serverId = true)
    (hfind : tools.find? (fun t => t.serverId == serverId && t.name == toolName) = some tool)
    (hv : validateToolArgs regexTest tool args = .error msg) :
    MCPClientManager.callTool connections tools regexTest remote serverId toolName args =
      { outcome := .error msg, transportContacted := false, dispatched := none } := by
  have hmem : serverId ∈ connections := by simpa using hconn
  unfold MCPClientManager.callTool
  simp [hconn, hfind, hv, hmem]

lemma callTool_validate_ok (connections : List String) (tools : List MCPTool)
    (regexTest : String → String → Bool) (remote : Json → Except String Json)
    (serverId toolName : String) (args : Json) (tool : MCPTool) (validated : Json)
    (hconn : connections.contains serverId = true)
    (hfind : tools.find? (fun t => t.serverId == serverId && t.name == toolName) = some tool)
    (hv : validateToolArgs regexTest tool args = .ok validated) :
    (MCPClientManager.callTool connections tools regexTest remote serverId toolName
      args).dispatched = some validated ∧
    (MCPClientManager.callTool connections tools regexTest remote serverId toolName
      args).transportContacted = true := by
  have hmem : serverId ∈ connections := by simpa using hconn
  unfold MCPClientManager.callTool
  cases hr : remote validated with
  | error e => simp [hconn, hfind, hv, hr, hmem]
  | ok result =>
    cases hie : jsonIsErrorFlag result with
    | true => simp [hconn, hfind, hv, hr, hie, hmem]
    | false => simp [hconn, hfind, hv, hr, hie, hmem]

/-- C9: for a tool whose input schema is an object schema, successful
validation produces an object containing only declared properties, the
payload dispatched to the server is exactly that validated object, and
adding an undeclared property to the arguments does not change the
validation result (the extra property is accepted and stripped). -/
theorem C9_validated_args_only_declared (connections : List String)
    (tools : List MCPTool) (regexTest : String → String → Bool)
    (remote : Json → Except String Json) (serverId toolName : String)
    (args : Json) (tool : MCPTool)
    (hfind : tools.find? (fun t => t.serverId == serverId && t.name == toolName) = some tool)
    (hobj : jget tool.inputSchema "type" = some (Json.str "object")) :
    (∀ v, validateToolArgs regexTest tool args = .ok v →
      ∃ out, v = Json.obj out ∧
        ∀ k ∈ out.map Prod.fst, k ∈ declaredProps tool.inputSchema) ∧
    (∀ p, (MCPClientManager.callTool connections tools regexTest remote
        serverId toolName args).dispatched = some p →
      ∃ out, p = Json.obj out ∧
        ∀ k ∈ out.map Prod.fst, k ∈ declaredProps tool.inputSchema) ∧
    (∀ (kvs : List (String × Json)) (k0 : String) (v0 : Json),
      k0 ∉ declaredProps tool.inputSchema →
      validateToolArgs regexTest tool (Json.obj ((k0, v0) :: kvs)) =
        validateToolArgs regexTest tool (Json.obj kvs)) := by
  obtain ⟨fields, hcz, hkeys⟩ := createZodSchema_object_keys tool.inputSchema hobj
  have hok : ∀ (a : Json) (v : Json), validateToolArgs regexTest tool a = .ok v →
      zodParse regexTest (.objT fields) a = .ok v := by
    intro a v hv
    unfold validateToolArgs at hv
    rw [hcz] at hv
    cases hz : zodParse regexTest (.objT fields) a with
    | ok w =>
      rw [hz] at hv
      cases hv
      rfl
    | error is =>
      rw [hz] at hv
      cases hv
  have hmain : ∀ (a : Json) (v : Json), validateToolArgs regexTest tool a = .ok v →
      ∃ out, v = Json.obj out ∧
        ∀ k ∈ out.map Prod.fst, k ∈ declaredProps tool.inputSchema := by
    intro a v hv
    have hz := hok a v hv
    cases a with
    | obj kvs =>
      rw [zodParse_objT_eq] at hz
      cases hemp : ((fields.foldr
          (zodFieldStep regexTest (ZodType.objT fields).size kvs) ([], []))).2.isEmpty with
      | true =>
        rw [if_pos hemp] at hz
        cases hz
        refine ⟨_, rfl, ?_⟩
        intro k hk
        rw [← hkeys]
        exact foldFields_keys_subset regexTest (ZodType.objT fields).size kvs fields k hk
      | false =>
        rw [if_neg (by simp [hemp])] at hz
        cases hz
    | null => exact absurd hz (zodParse_objT_nonobj_error regexTest fields _ (by intro kvs h; cases h) v)
    | bool b => exact absurd hz (zodParse_objT_nonobj_error regexTest fields _ (by intro kvs h; cases h) v)
    | num x => exact absurd hz (zodParse_objT_nonobj_error regexTest fields _ (by intro kvs h; cases h) v)
    | str s2 => exact absurd hz (zodParse_objT_nonobj_error regexTest fields _ (by intro kvs h; cases h) v)
    | arr xs => exact absurd hz (zodParse_objT_nonobj_error regexTest fields _ (by intro kvs h; cases h) v)
  refine ⟨hmain args, ?_, ?_⟩
  · intro p hp
    cases hcn : connections.contains serverId with
    | false =>
      rw [callTool_no_connection connections tools regexTest remote serverId toolName
        args hcn] at hp
      cases hp
    | true =>
      cases hv : validateToolArgs regexTest tool args with
      | error msg =>
        rw [callTool_validate_error connections tools regexTest remote serverId toolName
          args tool msg hcn hfind hv] at hp
        cases hp
      | ok validated =>
        have hd := (callTool_validate_ok connections tools regexTest remote serverId
          toolName args tool validated hcn hfind hv).1
        rw [hd] at hp
        exact hmain args p ((Option.some.inj hp) ▸ hv)
  · intro kvs k0 v0 hk0
    have hk0f : k0 ∉ fields.map (fun f => f.1) := by
      rw [hkeys]
      exact hk0
    unfold validateToolArgs
    rw [hcz, zodParse_objT_eq, zodParse_objT_eq,
      foldFields_extra_key regexTest (ZodType.objT fields).size kvs k0 v0 fields hk0f]

/-- C6 amended: when validation of a tool call's arguments fails,
`MCPClientManager.callTool` throws an `Error` — the `.error` outcome models
the exception propagating to the caller; no CallResult-style value is
returned — whose message is `Invalid arguments for tool <name>: ` followed
by every failing field as `path: message` joined by ", "; the transport is
not contacted and nothing is dispatched.  A missing required argument of an
object schema yields an issue with exactly that field's path and message
"Required", and extra undeclared properties never cause a failure. -/
theorem C6_validation_failure_throws (connections : List String)
    (tools : List MCPTool) (regexTest : String → String → Bool)
    (remote : Json → Except String Json) (serverId toolName : String)
    (args : Json) (tool : MCPTool) (issues : List ZodIssue)
    (hconn : connections.contains serverId = true)
    (hfind : tools.find? (fun t => t.serverId == serverId && t.name == toolName) = some tool)
    (hval : zodParse regexTest (createZodSchema tool.inputSchema) args = .error issues) :
    (MCPClientManager.callTool connections tools regexTest remote serverId toolName args).outcome
      = .error ("Invalid arguments for tool " ++ tool.name ++ ": " ++ formatZodIssues issues) ∧
    (MCPClientManager.callTool connections tools regexTest remote serverId toolName args).transportContacted
      = false ∧
    (MCPClientManager.callTool connections tools regexTest remote serverId toolName args).dispatched
      = none ∧
    (∀ (f : String) (kvs : List (String × Json)),
      jget tool.inputSchema "type" = some (Json.str "object") →
      f ∈ requiredNames tool.inputSchema →
      f ∈ declaredProps tool.inputSchema →
      lookupField kvs f = none →
      ∃ is, zodParse regexTest (createZodSchema tool.inputSchema) (Json.obj kvs) = .error is ∧
        ({ path := [f], message := "Required" } : ZodIssue) ∈ is) ∧
    (∀ (kvs : List (String × Json)) (k0 : String) (v0 : Json),
      jget tool.inputSchema "type" = some (Json.str "object") →
      k0 ∉ declaredProps tool.inputSchema →
      zodParse regexTest (createZodSchema tool.inputSchema) (Json.obj ((k0, v0) :: kvs)) =
        zodParse regexTest (createZodSchema tool.inputSchema) (Json.obj kvs)) := by
  have hvmsg : validateToolArgs regexTest tool args =
      .error ("Invalid arguments for tool " ++ tool.name ++ ": " ++ formatZodIssues issues) := by
    unfold validateToolArgs
    rw [hval]
  have hcall := callTool_validate_error connections tools regexTest remote serverId
    toolName args tool _ hconn hfind hvmsg
  refine ⟨by rw [hcall], by rw [hcall], by rw [hcall], ?_, ?_⟩
  · intro f kvs hobj hreq hdecl hlook
    obtain ⟨kv, hkvmem, hkv1⟩ := List.mem_map.mp hdecl
    have hcont : (requiredNames tool.inputSchema).contains f = true :=
      List.elem_eq_true_of_mem hreq
    have hfield : (f, createZodSchemaFuel tool.inputSchema.size kv.2, false) ∈
        ((schemaProps tool.inputSchema).map (fun kv =>
          (kv.1, createZodSchemaFuel tool.inputSchema.size kv.2,
           !(requiredNames tool.inputSchema).contains kv.1))) := by
      refine List.mem_map.mpr ⟨kv, hkvmem, ?_⟩
      rw [hkv1, hcont]
      rfl
    rw [createZodSchema_object_eq tool.inputSchema hobj, zodParse_objT_eq]
    have hiss := foldFields_required regexTest
      (ZodType.objT ((schemaProps tool.inputSchema).map (fun kv =>
        (kv.1, createZodSchemaFuel tool.inputSchema.size kv.2,
         !(requiredNames tool.inputSchema).contains kv.1)))).size
      kvs _ f (createZodSchemaFuel tool.inputSchema.size kv.2) hfield hlook
    refine ⟨_, ?_, hiss⟩
    rw [if_neg]
    intro hcontra
    rw [List.isEmpty_iff] at hcontra
    rw [hcontra] at hiss
    cases hiss
  · intro kvs k0 v0 hobj hk0
    obtain ⟨fields, hcz, hkeys⟩ := createZodSchema_object_keys tool.inputSchema hobj
    have hk0f : k0 ∉ fields.map (fun f => f.1) := by
      rw [hkeys]
      exact hk0
    rw [hcz, zodParse_objT_eq, zodParse_objT_eq,
      foldFields_extra_key regexTest (ZodType.objT fields).size kvs k0 v0 fields hk0f]


/-- The object schema of the C6 scenario: one declared string property "x",
required. -/
def c6schema : Json :=
  Json.obj [("type", Json.str "object"),
            ("properties", Json.obj [("x", Json.obj [("type", Json.str "string")])]),
            ("required", Json.arr [Json.str "x"])]

/-- The tool of the C6 scenario. -/
def c6tool : MCPTool :=
  { serverId := "srv", name := "t", description := none, inputSchema := c6schema }

/-- C6 counterexample: calling tool "t" with `{}` (missing the required
argument "x") makes `MCPClientManager.callTool` THROW — the outcome is the
propagated exception, not a returned CallResult value — with the formatted
message; the transport is not contacted.  The claim, which says the caller
receives a CallResult whose error lists the failing fields, is false on this
code path: no CallResult is produced at all. -/
theorem C6_counterexample :
    (MCPClientManager.callTool ["srv"] [c6tool] (fun _ _ => true) (fun _ => .ok Json.null)
      "srv" "t" (Json.obj [])).outcome
        = .error "Invalid arguments for tool t: x: Required" ∧
    (MCPClientManager.callTool ["srv"] [c6tool] (fun _ _ => true) (fun _ => .ok Json.null)
      "srv" "t" (Json.obj [])).transportContacted = false :=
  ⟨rfl, rfl⟩

/-- Witness for the amended C6 at the concrete scenario. -/
theorem C6_witness :
    ((["srv"] : List String).contains "srv" = true) ∧
    ([c6tool].find? (fun t => t.serverId == "srv" && t.name == "t") = some c6tool) ∧
    (zodParse (fun _ _ => true) (createZodSchema c6tool.inputSchema) (Json.obj []) =
      .error [{ path := ["x"], message := "Required" }]) ∧
    (MCPClientManager.callTool ["srv"] [c6tool] (fun _ _ => true) (fun _ => .ok Json.null)
      "srv" "t" (Json.obj [])).dispatched = none :=
  ⟨rfl, rfl, rfl,
   (C6_validation_failure_throws ["srv"] [c6tool] (fun _ _ => true) (fun _ => .ok Json.null)
     "srv" "t" (Json.obj []) c6tool [{ path := ["x"], message := "Required" }]
     rfl rfl rfl).2.2.1⟩

/-- The object schema of the C9 scenario. -/
def c9schema : Json :=
  Json.obj [("type", Json.str "object"),
            ("properties", Json.obj [("x", Json.obj [("type", Json.str "string")])]),
            ("required", Json.arr [Json.str "x"])]

/-- The tool of the C9 scenario. -/
def c9tool : MCPTool :=
  { serverId := "s9", name := "t9", description := none, inputSchema := c9schema }

/-- Sanity check (not a claim): an undeclared extra property is accepted and
silently stripped from the validated payload. -/
lemma c9_strip_example :
    validateToolArgs (fun _ _ => true) c9tool
        (Json.obj [("x", Json.str "a"), ("extra", Json.num 1)]) =
      .ok (Json.obj [("x", Json.str "a")]) := rfl

/-- Witness for C9 at the concrete scenario. -/
theorem C9_witness :
    ([c9tool].find? (fun t => t.serverId == "s9" && t.name == "t9") = some c9tool) ∧
    (jget c9tool.inputSchema "type" = some (Json.str "object")) ∧
    (∀ v, validateToolArgs (fun _ _ => true) c9tool
        (Json.obj [("x", Json.str "a"), ("extra", Json.num 1)]) = .ok v →
      ∃ out, v = Json.obj out ∧
        ∀ k ∈ out.map Prod.fst, k ∈ declaredProps c9tool.inputSchema) :=
  ⟨rfl, rfl,
   (C9_validated_args_only_declared ["s9"] [c9tool] (fun _ _ => true) (fun _ => .ok Json.null)
     "s9" "t9" (Json.obj [("x", Json.str "a"), ("extra", Json.num 1)]) c9tool rfl rfl).1⟩


/-! ### C4: updateServerConnections reconciliation -/

/-- C4 scenario: one connection ("a", global) whose transport close
rejects. -/
def c4hub : McpHub :=
  (emptyHub.connectToServer "a" sampleConfig .global (.success 1 false)).1

/-- C4 counterexample: reconciling with an empty desired set must, per the
claim, delete the ("a", global) connection ("a" is not a desired name), but
the rejecting `close()` makes `deleteConnection` leave it in place: the
connection list still has one entry. -/
theorem C4_counterexample :
    ((c4hub.updateServerConnections [] .global []).1).connections.length = 1 := by
  decide

/-- The deleted connection survives when it should be kept. -/
lemma deleteConnection_mem_keep (hub : McpHub) (n : String)
    (src : Option McpServerSource) (c : McpConnection)
    (hc : c ∈ hub.connections) (hkeep : keepPred n src c = true) :
    c ∈ ((hub.deleteConnection n src).1).connections := by
  cases hf : hub.findConnection n src with
  | none =>
    rw [deleteConnection_of_find_none hf]
    exact hc
  | some conn =>
    cases hok : conn.transport.closeSucceeds with
    | false =>
      rw [deleteConnection_of_close_fail hf hok]
      exact hc
    | true =>
      rw [deleteConnection_of_close_ok hf hok]
      exact List.mem_filter.mpr ⟨hc, hkeep⟩

/-- On a hub whose transports all close cleanly, `deleteConnection` is
exactly a filter on the connection list. -/
lemma deleteConnection_conns_clean (hub : McpHub) (n : String) (s : McpServerSource)
    (hclean : ∀ c ∈ hub.connections, c.transport.closeSucceeds = true) :
    ((hub.deleteConnection n (some s)).1).connections =
      hub.connections.filter (keepPred n (some s)) := by
  cases hf : hub.findConnection n (some s) with
  | none =>
    rw [deleteConnection_of_find_none hf]
    symm
    apply List.filter_eq_self.mpr
    intro c hc
    have hpred := List.find?_eq_none.mp hf c hc
    simp only [Bool.and_eq_true, not_and] at hpred
    simp only [keepPred]
    cases h1 : (c.server.name == n) with
    | false => simp [h1]
    | true =>
      cases h2 : (c.server.source == s) with
      | false => simp [h1, h2]
      | true => exact absurd h2 (hpred h1)
  | some conn =>
    rw [deleteConnection_of_close_ok hf (hclean conn (List.mem_of_find?_eq_some hf))]
    rfl

/-- The keep predicate of the stale-deletion phase: a connection is removed
exactly when its source matches, its name was one of the processed current
names, and its name is not among the desired names. -/
def phase1Keep (s : McpServerSource) (newNames names : List String)
    (c : McpConnection) : Bool :=
  !((c.server.source == s) && names.contains c.server.name &&
    !(newNames.contains c.server.name))

lemma phase1Keep_nil (s : McpServerSource) (newNames : List String)
    (c : McpConnection) : phase1Keep s newNames [] c = true := by
  simp [phase1Keep]

lemma phase1Keep_cons_mem (s : McpServerSource) (newNames : List String)
    (n : String) (ns : List String) (c : McpConnection)
    (hn : newNames.contains n = true) :
    phase1Keep s newNames (n :: ns) c = phase1Keep s newNames ns c := by
  simp only [phase1Keep, List.contains_cons]
  cases h2 : (c.server.name == n) with
  | false => simp [h2]
  | true =>
    have hname : c.server.name = n := beq_iff_eq.mp h2
    have hin : c.server.name ∈ newNames := by
      rw [hname]
      simpa using hn
    simp [h2, hin]

lemma phase1Keep_cons_del (s : McpServerSource) (newNames : List String)
    (n : String) (ns : List String) (c : McpConnection)
    (hn : newNames.contains n = false) :
    (phase1Keep s newNames ns c && keepPred n (some s) c) =
      phase1Keep s newNames (n :: ns) c := by
  simp only [phase1Keep, keepPred, List.contains_cons]
  cases h1 : (c.server.source == s) with
  | false => simp [h1]
  | true =>
    cases h2 : (c.server.name == n) with
    | false => simp [h1, h2]
    | true =>
      have hname : c.server.name = n := beq_iff_eq.mp h2
      have hnotin : c.server.name ∉ newNames := by
        rw [hname]
        simpa using hn
      simp [h1, h2, hnotin]

/-- The stale-deletion fold is a single filter, provided all transports close
cleanly. -/
lemma phase1_conns (s : McpServerSource) (newNames : List String) :
    ∀ (names : List String) (st : McpHub × List Nat),
    (∀ c ∈ st.1.connections, c.transport.closeSucceeds = true) →
    ((names.foldl (updateDeleteStep s newNames) st).1).connections =
      st.1.connections.filter (phase1Keep s newNames names) := by
  intro names
  induction names with
  | nil =>
    intro st _
    symm
    apply List.filter_eq_self.mpr
    intro c _
    exact phase1Keep_nil s newNames c
  | cons n ns ih =>
    intro st hclean
    rw [List.foldl_cons]
    cases hn : newNames.contains n with
    | true =>
      have hstep : updateDeleteStep s newNames st n = st := by
        unfold updateDeleteStep
        rw [hn]
        rfl
      rw [hstep, ih st hclean]
      apply List.filter_congr
      intro c _
      exact (phase1Keep_cons_mem s newNames n ns c hn).symm
    | false =>
      have hstep : (updateDeleteStep s newNames st n).1 = (st.1.deleteConnection n (some s)).1 := by
        unfold updateDeleteStep
        rw [hn]
        rfl
      have hdel := deleteConnection_conns_clean st.1 n s hclean
      have hclean2 : ∀ c ∈ (updateDeleteStep s newNames st n).1.connections,
          c.transport.closeSucceeds = true := by
        intro c hc
        rw [hstep, hdel] at hc
        exact hclean c (List.mem_filter.mp hc).1
      have := ih (updateDeleteStep s newNames st n) hclean2
      rw [this, hstep, hdel, List.filter_filter]
      apply List.filter_congr
      intro c _
      exact phase1Keep_cons_del s newNames n ns c hn

/-- Whether a connection matches the shape `connectToServer` produces for a
given connect outcome. -/
def matchesOutcome (c : McpConnection) : ConnectOutcome → Prop
  | .success tid ok =>
    c.server.status = .connected ∧ c.transport = .real tid ok ∧ c.server.errors = []
  | .failure msg =>
    c.server.status = .error ∧ c.transport = .placeholder ∧ c.server.errors = [msg]

/-- `connectToServer` appends exactly one connection for the requested key,
configured with the given config and shaped by the connect outcome. -/
lemma connectToServer_appends (hub : McpHub) (n : String) (cfg : McpServerConfig)
    (s : McpServerSource) (o : ConnectOutcome) :
    ∃ c, ((hub.connectToServer n cfg s o).1).connections =
        ((hub.deleteConnection n (some s)).1).connections ++ [c] ∧
      connKey c = (n, s) ∧ c.server.config = cfg ∧ matchesOutcome c o := by
  cases o with
  | success tid closeOk =>
    refine ⟨⟨{ name := n, config := cfg, status := .connected,
               disabled := cfg.disabledFlag, source := s, errors := [] },
             .real tid closeOk⟩, ?_, rfl, rfl, ⟨rfl, rfl, rfl⟩⟩
    simp [McpHub.connectToServer, McpHub.invalidateCache]
  | failure msg =>
    refine ⟨⟨{ name := n, config := cfg, status := .error,
               disabled := cfg.disabledFlag, source := s, errors := [msg] },
             .placeholder⟩, ?_, rfl, rfl, ⟨rfl, rfl, rfl⟩⟩
    simp [McpHub.connectToServer]


/-- The current server names of a source (first phase of the update). -/
def currentNames (hub : McpHub) (s : McpServerSource) : List String :=
  (hub.connections.filter (fun c => c.server.source == s)).map (fun c => c.server.name)

/-- The state after the stale-deletion phase of `updateServerConnections`. -/
def updatePhase1 (hub : McpHub) (cfgs : List (String × McpServerConfig))
    (s : McpServerSource) : McpHub × List Nat :=
  (currentNames hub s).foldl (updateDeleteStep s (cfgs.map Prod.fst)) (hub, [])

lemma updateServerConnections_eq (hub : McpHub)
    (cfgs : List (String × McpServerConfig)) (s : McpServerSource)
    (outs : List (String × ConnectOutcome)) :
    hub.updateServerConnections cfgs s outs =
      cfgs.foldl (updateConnectStep s outs) (updatePhase1 hub cfgs s) := rfl

lemma keepPred_of_name_ne (n : String) (src : McpServerSource) (c : McpConnection)
    (h : c.server.name ≠ n) : keepPred n (some src) c = true := by
  have hb : (c.server.name == n) = false := beq_eq_false_iff_ne.mpr h
  simp [keepPred, hb]

lemma keepPred_of_source_ne (n : String) (src : McpServerSource) (c : McpConnection)
    (h : c.server.source ≠ src) : keepPred n (some src) c = true := by
  have hb : (c.server.source == src) = false := beq_eq_false_iff_ne.mpr h
  simp [keepPred, hb]

lemma ucs_of_skip (source : McpServerSource) (outs : List (String × ConnectOutcome))
    (st : McpHub × List Nat) (nc : String × McpServerConfig) (d : McpConnection)
    (hf : st.1.findConnection nc.1 (some source) = some d)
    (heq : d.server.config = nc.2) :
    updateConnectStep source outs st nc = st := by
  unfold updateConnectStep
  rw [hf]
  simp [heq]

lemma ucs_of_connect_some (source : McpServerSource) (outs : List (String × ConnectOutcome))
    (st : McpHub × List Nat) (nc : String × McpServerConfig) (d : McpConnection)
    (hf : st.1.findConnection nc.1 (some source) = some d)
    (hne : ¬ d.server.config = nc.2) :
    (updateConnectStep source outs st nc).1 =
      (st.1.connectToServer nc.1 nc.2 source (lookupOutcome outs nc.1)).1 := by
  unfold updateConnectStep
  rw [hf]
  simp [hne]

lemma ucs_of_connect_none (source : McpServerSource) (outs : List (String × ConnectOutcome))
    (st : McpHub × List Nat) (nc : String × McpServerConfig)
    (hf : st.1.findConnection nc.1 (some source) = none) :
    (updateConnectStep source outs st nc).1 =
      (st.1.connectToServer nc.1 nc.2 source (lookupOutcome outs nc.1)).1 := by
  unfold updateConnectStep
  rw [hf]

lemma ucs_mem_keep (source : McpServerSource) (outs : List (String × ConnectOutcome))
    (st : McpHub × List Nat) (nc : String × McpServerConfig) (c : McpConnection)
    (hc : c ∈ st.1.connections) (hkeep : keepPred nc.1 (some source) c = true) :
    c ∈ (updateConnectStep source outs st nc).1.connections := by
  have hconn : c ∈ ((st.1.connectToServer nc.1 nc.2 source (lookupOutcome outs nc.1)).1).connections := by
    obtain ⟨cNew, hconns, _, _, _⟩ :=
      connectToServer_appends st.1 nc.1 nc.2 source (lookupOutcome outs nc.1)
    rw [hconns]
    exact List.mem_append_left _ (deleteConnection_mem_keep st.1 nc.1 (some source) c hc hkeep)
  cases hf : st.1.findConnection nc.1 (some source) with
  | some d =>
    by_cases heq : d.server.config = nc.2
    · rw [ucs_of_skip source outs st nc d hf heq]
      exact hc
    · rw [ucs_of_connect_some source outs st nc d hf heq]
      exact hconn
  | none =>
    rw [ucs_of_connect_none source outs st nc hf]
    exact hconn

lemma ucs_nonmem (source : McpServerSource) (outs : List (String × ConnectOutcome))
    (st : McpHub × List Nat) (nc : String × McpServerConfig) (c : McpConnection)
    (hc : c ∉ st.1.connections) (hname : c.server.name ≠ nc.1) :
    c ∉ (updateConnectStep source outs st nc).1.connections := by
  have hconn : c ∉ ((st.1.connectToServer nc.1 nc.2 source (lookupOutcome outs nc.1)).1).connections := by
    obtain ⟨cNew, hconns, hkey, _, _⟩ :=
      connectToServer_appends st.1 nc.1 nc.2 source (lookupOutcome outs nc.1)
    rw [hconns]
    intro hmem
    rcases List.mem_append.mp hmem with hL | hR
    · exact hc ((deleteConnection_sublist st.1 nc.1 (some source)).subset hL)
    · have hcN : c = cNew := List.mem_singleton.mp hR
      apply hname
      rw [hcN]
      exact congrArg Prod.fst hkey
  cases hf : st.1.findConnection nc.1 (some source) with
  | some d =>
    by_cases heq : d.server.config = nc.2
    · rw [ucs_of_skip source outs st nc d hf heq]
      exact hc
    · rw [ucs_of_connect_some source outs st nc d hf heq]
      exact hconn
  | none =>
    rw [ucs_of_connect_none source outs st nc hf]
    exact hconn

lemma ucs_origin (source : McpServerSource) (outs : List (String × ConnectOutcome))
    (st : McpHub × List Nat) (nc : String × McpServerConfig) (nm : String)
    (hne : nc.1 ≠ nm) :
    ∀ d ∈ (updateConnectStep source outs st nc).1.connections,
      d.server.name = nm → d ∈ st.1.connections := by
  intro d hd hdname
  have hconn : d ∈ ((st.1.connectToServer nc.1 nc.2 source (lookupOutcome outs nc.1)).1).connections →
      d ∈ st.1.connections := by
    intro hmem
    obtain ⟨cNew, hconns, hkey, _, _⟩ :=
      connectToServer_appends st.1 nc.1 nc.2 source (lookupOutcome outs nc.1)
    rw [hconns] at hmem
    rcases List.mem_append.mp hmem with hL | hR
    · exact (deleteConnection_sublist st.1 nc.1 (some source)).subset hL
    · exfalso
      have hdN : d = cNew := List.mem_singleton.mp hR
      apply hne
      rw [← hdname, hdN]
      exact (congrArg Prod.fst hkey).symm
  cases hf : st.1.findConnection nc.1 (some source) with
  | some e =>
    by_cases heq : e.server.config = nc.2
    · rw [ucs_of_skip source outs st nc e hf heq] at hd
      exact hd
    · rw [ucs_of_connect_some source outs st nc e hf heq] at hd
      exact hconn hd
  | none =>
    rw [ucs_of_connect_none source outs st nc hf] at hd
    exact hconn hd

lemma foldl_ucs_mem (source : McpServerSource) (outs : List (String × ConnectOutcome)) :
    ∀ (entries : List (String × McpServerConfig)) (st : McpHub × List Nat)
      (c : McpConnection), c ∈ st.1.connections →
    (∀ nc ∈ entries, keepPred nc.1 (some source) c = true) →
    c ∈ ((entries.foldl (updateConnectStep source outs) st).1).connections := by
  intro entries
  induction entries with
  | nil =>
    intro st c hc _
    exact hc
  | cons nc ncs ih =>
    intro st c hc hk
    rw [List.foldl_cons]
    exact ih _ c (ucs_mem_keep source outs st nc c hc (hk nc (List.mem_cons_self nc ncs)))
      (fun e he => hk e (List.mem_cons_of_mem nc he))

lemma foldl_ucs_nonmem (source : McpServerSource) (outs : List (String × ConnectOutcome)) :
    ∀ (entries : List (String × McpServerConfig)) (st : McpHub × List Nat)
      (c : McpConnection), c ∉ st.1.connections →
    (∀ nc ∈ entries, c.server.name ≠ nc.1) →
    c ∉ ((entries.foldl (updateConnectStep source outs) st).1).connections := by
  intro entries
  induction entries with
  | nil =>
    intro st c hc _
    exact hc
  | cons nc ncs ih =>
    intro st c hc hk
    rw [List.foldl_cons]
    exact ih _ c (ucs_nonmem source outs st nc c hc (hk nc (List.mem_cons_self nc ncs)))
      (fun e he => hk e (List.mem_cons_of_mem nc he))

lemma foldl_ucs_origin (source : McpServerSource) (outs : List (String × ConnectOutcome))
    (nm : String) :
    ∀ (entries : List (String × McpServerConfig)) (st : McpHub × List Nat),
    (∀ nc ∈ entries, nc.1 ≠ nm) →
    ∀ d ∈ ((entries.foldl (updateConnectStep source outs) st).1).connections,
      d.server.name = nm → d ∈ st.1.connections := by
  intro entries
  induction entries with
  | nil =>
    intro st _ d hd _
    exact hd
  | cons nc ncs ih =>
    intro st hk d hd hdname
    rw [List.foldl_cons] at hd
    exact ucs_origin source outs st nc nm (hk nc (List.mem_cons_self nc ncs)) d
      (ih _ (fun e he => hk e (List.mem_cons_of_mem nc he)) d hd hdname) hdname

lemma findConnection_some_props (h : McpHub) (nm : String) (s : McpServerSource)
    (d : McpConnection) (hf : h.findConnection nm (some s) = some d) :
    d ∈ h.connections ∧ connKey d = (nm, s) := by
  refine ⟨List.mem_of_find?_eq_some hf, ?_⟩
  have hp := List.find?_some hf
  simp only [Bool.and_eq_true, beq_iff_eq] at hp
  simp [connKey, hp.1, hp.2]


lemma phase1_conns_of (hub : McpHub) (cfgs : List (String × McpServerConfig))
    (s : McpServerSource)
    (hclean : ∀ c ∈ hub.connections, c.transport.closeSucceeds = true) :
    ((updatePhase1 hub cfgs s).1).connections =
      hub.connections.filter (phase1Keep s (cfgs.map Prod.fst) (currentNames hub s)) :=
  phase1_conns s (cfgs.map Prod.fst) (currentNames hub s) (hub, []) hclean

/-- C4: updateServerConnections does NOT, in general, delete exactly the
connections whose source matches and whose name left the config: when a
matching stale connection's transport close() rejects, deleteConnection's
shared try block skips the list removal and the connection survives
(`C4_counterexample`). Under the amended hypothesis that every teardown
close() succeeds (and keys/config names are duplicate-free), reconciliation
behaves as specified: (1) connections of other sources are untouched;
(2) matching-source connections whose name is absent from the new config are
deleted; (3) an existing connection with identical config for a configured
name is kept as-is (skip); (4) for a configured name with no
identically-configured existing connection, the result holds a connection
with that key whose config is the new one and whose server state reflects
the connect outcome (connected on success; disconnected with the recorded
error message on failure). -/
theorem C4_update_reconciliation
    (hub : McpHub) (cfgs : List (String × McpServerConfig)) (s : McpServerSource)
    (outs : List (String × ConnectOutcome))
    (hclean : ∀ c ∈ hub.connections, c.transport.closeSucceeds = true)
    (hnodup : (hub.connections.map connKey).Nodup)
    (hcfg : (cfgs.map Prod.fst).Nodup) :
    (∀ c ∈ hub.connections, c.server.source ≠ s →
      c ∈ ((hub.updateServerConnections cfgs s outs).1).connections) ∧
    (∀ c ∈ hub.connections, c.server.source = s → c.server.name ∉ cfgs.map Prod.fst →
      c ∉ ((hub.updateServerConnections cfgs s outs).1).connections) ∧
    (∀ nc ∈ cfgs, ∀ c ∈ hub.connections, connKey c = (nc.1, s) → c.server.config = nc.2 →
      c ∈ ((hub.updateServerConnections cfgs s outs).1).connections) ∧
    (∀ nc ∈ cfgs, (∀ c ∈ hub.connections, connKey c = (nc.1, s) → c.server.config ≠ nc.2) →
      ∃ c ∈ ((hub.updateServerConnections cfgs s outs).1).connections,
        connKey c = (nc.1, s) ∧ c.server.config = nc.2 ∧
        matchesOutcome c (lookupOutcome outs nc.1)) := by
  have h1conns := phase1_conns_of hub cfgs s hclean
  have hsub1 : ∀ d ∈ ((updatePhase1 hub cfgs s).1).connections, d ∈ hub.connections := by
    intro d hd
    rw [h1conns] at hd
    exact (List.mem_filter.mp hd).1
  refine ⟨?_, ?_, ?_, ?_⟩
  · intro c hc hsrc
    rw [updateServerConnections_eq]
    have hin1 : c ∈ ((updatePhase1 hub cfgs s).1).connections := by
      rw [h1conns]
      refine List.mem_filter.mpr ⟨hc, ?_⟩
      have hb : (c.server.source == s) = false := beq_eq_false_iff_ne.mpr hsrc
      simp [phase1Keep, hb]
    exact foldl_ucs_mem s outs cfgs _ c hin1
      (fun nc _ => keepPred_of_source_ne nc.1 s c hsrc)
  · intro c hc hsrc hnot
    rw [updateServerConnections_eq]
    have hout1 : c ∉ ((updatePhase1 hub cfgs s).1).connections := by
      rw [h1conns]
      intro hmem
      have hpred := (List.mem_filter.mp hmem).2
      have hsb : (c.server.source == s) = true := beq_iff_eq.mpr hsrc
      have hnameIn : c.server.name ∈ currentNames hub s :=
        List.mem_map_of_mem (fun d => d.server.name) (List.mem_filter.mpr ⟨hc, hsb⟩)
      have hcur : (currentNames hub s).contains c.server.name = true := by
        simpa using hnameIn
      have hnew : (cfgs.map Prod.fst).contains c.server.name = false := by
        simpa using hnot
      simp [phase1Keep, hsb, hcur, hnew] at hpred
      rcases hpred with h | ⟨x, hx⟩
      · exact h hnameIn
      · exact hnot (List.mem_map_of_mem Prod.fst hx)
    exact foldl_ucs_nonmem s outs cfgs _ c hout1
      (fun nc hnc heq => hnot (by rw [heq]; exact List.mem_map_of_mem Prod.fst hnc))
  · intro nc hnc c hc hkey hcfgeq
    obtain ⟨pre, post, hsplit⟩ := List.append_of_mem hnc
    have hcname : c.server.name = nc.1 := congrArg Prod.fst hkey
    have hcsrc : c.server.source = s := congrArg Prod.snd hkey
    subst hsplit
    rw [List.map_append, List.map_cons] at hcfg
    have hdisj := (List.nodup_append.mp hcfg).2.2
    have hpostN := (List.nodup_cons.mp (List.nodup_append.mp hcfg).2.1).1
    have hpre_ne : ∀ e ∈ pre, e.1 ≠ nc.1 := by
      intro e he heq
      exact hdisj (List.mem_map_of_mem Prod.fst he) (heq ▸ List.mem_cons_self nc.1 _)
    have hpost_ne : ∀ e ∈ post, e.1 ≠ nc.1 := by
      intro e he heq
      exact hpostN (heq ▸ List.mem_map_of_mem Prod.fst he)
    rw [updateServerConnections_eq, List.foldl_append, List.foldl_cons]
    have hin1 : c ∈ ((updatePhase1 hub (pre ++ nc :: post) s).1).connections := by
      rw [phase1_conns_of hub (pre ++ nc :: post) s hclean]
      refine List.mem_filter.mpr ⟨hc, ?_⟩
      have hnew : ((pre ++ nc :: post).map Prod.fst).contains c.server.name = true := by
        have : c.server.name ∈ (pre ++ nc :: post).map Prod.fst := by
          rw [hcname]
          exact List.mem_map_of_mem Prod.fst hnc
        simpa using this
      unfold phase1Keep
      rw [hnew]
      simp
    have hinPre : c ∈ ((pre.foldl (updateConnectStep s outs) (updatePhase1 hub (pre ++ nc :: post) s)).1).connections :=
      foldl_ucs_mem s outs pre _ c hin1
        (fun e he => keepPred_of_name_ne e.1 s c (fun h => hpre_ne e he (h.symm.trans hcname)))
    cases hf : ((pre.foldl (updateConnectStep s outs) (updatePhase1 hub (pre ++ nc :: post) s)).1).findConnection nc.1 (some s) with
    | none =>
      exfalso
      have := List.find?_eq_none.mp hf c hinPre
      simp [hcname, hcsrc] at this
    | some d =>
      obtain ⟨hdmem, hdkey⟩ := findConnection_some_props _ nc.1 s d hf
      have hdhub : d ∈ hub.connections := by
        have hdname : d.server.name = nc.1 := congrArg Prod.fst hdkey
        have hdpre : d ∈ ((updatePhase1 hub (pre ++ nc :: post) s).1).connections :=
          foldl_ucs_origin s outs nc.1 pre _ hpre_ne d hdmem hdname
        rw [phase1_conns_of hub (pre ++ nc :: post) s hclean] at hdpre
        exact (List.mem_filter.mp hdpre).1
      have hdc : d = c := eq_of_nodup_map connKey hnodup hdhub hc (hdkey.trans hkey.symm)
      rw [ucs_of_skip s outs _ nc d hf (by rw [hdc]; exact hcfgeq)]
      exact foldl_ucs_mem s outs post _ c hinPre
        (fun e he => keepPred_of_name_ne e.1 s c (fun h => hpost_ne e he (h.symm.trans hcname)))
  · intro nc hnc hnone
    obtain ⟨pre, post, hsplit⟩ := List.append_of_mem hnc
    subst hsplit
    rw [List.map_append, List.map_cons] at hcfg
    have hdisj := (List.nodup_append.mp hcfg).2.2
    have hpostN := (List.nodup_cons.mp (List.nodup_append.mp hcfg).2.1).1
    have hpre_ne : ∀ e ∈ pre, e.1 ≠ nc.1 := by
      intro e he heq
      exact hdisj (List.mem_map_of_mem Prod.fst he) (heq ▸ List.mem_cons_self nc.1 _)
    have hpost_ne : ∀ e ∈ post, e.1 ≠ nc.1 := by
      intro e he heq
      exact hpostN (heq ▸ List.mem_map_of_mem Prod.fst he)
    rw [updateServerConnections_eq, List.foldl_append, List.foldl_cons]
    have hstep : ((updateConnectStep s outs (pre.foldl (updateConnectStep s outs) (updatePhase1 hub (pre ++ nc :: post) s)) nc).1) =
        (((pre.foldl (updateConnectStep s outs) (updatePhase1 hub (pre ++ nc :: post) s)).1).connectToServer nc.1 nc.2 s (lookupOutcome outs nc.1)).1 := by
      cases hf : ((pre.foldl (updateConnectStep s outs) (updatePhase1 hub (pre ++ nc :: post) s)).1).findConnection nc.1 (some s) with
      | none =>
        exact ucs_of_connect_none s outs _ nc hf
      | some d =>
        obtain ⟨hdmem, hdkey⟩ := findConnection_some_props _ nc.1 s d hf
        have hdname : d.server.name = nc.1 := congrArg Prod.fst hdkey
        have hdhub : d ∈ hub.connections := by
          have hdpre : d ∈ ((updatePhase1 hub (pre ++ nc :: post) s).1).connections :=
            foldl_ucs_origin s outs nc.1 pre _ hpre_ne d hdmem hdname
          rw [phase1_conns_of hub (pre ++ nc :: post) s hclean] at hdpre
          exact (List.mem_filter.mp hdpre).1
        exact ucs_of_connect_some s outs _ nc d hf (hnone d hdhub hdkey)
    obtain ⟨cNew, hconns, hkeyN, hcfgN, hmatchN⟩ :=
      connectToServer_appends ((pre.foldl (updateConnectStep s outs) (updatePhase1 hub (pre ++ nc :: post) s)).1) nc.1 nc.2 s (lookupOutcome outs nc.1)
    have hNname : cNew.server.name = nc.1 := congrArg Prod.fst hkeyN
    have hNin : cNew ∈ ((updateConnectStep s outs (pre.foldl (updateConnectStep s outs) (updatePhase1 hub (pre ++ nc :: post) s)) nc).1).connections := by
      rw [hstep, hconns]
      exact List.mem_append_right _ (List.mem_singleton.mpr rfl)
    refine ⟨cNew, ?_, hkeyN, hcfgN, hmatchN⟩
    exact foldl_ucs_mem s outs post _ cNew hNin
      (fun e he => keepPred_of_name_ne e.1 s cNew (fun h => hpost_ne e he (h.symm.trans hNname)))


def c4whub : McpHub :=
  (emptyHub.connectToServer "a" sampleConfig .global (.success 1 true)).1

theorem C4_witness :
    (∀ c ∈ c4whub.connections, c.transport.closeSucceeds = true) ∧
    (∀ c ∈ c4whub.connections, c.server.source = .global →
      c.server.name ∉ (([] : List (String × McpServerConfig)).map Prod.fst) →
      c ∉ ((c4whub.updateServerConnections [] .global []).1).connections) :=
  ⟨by decide,
   (C4_update_reconciliation c4whub [] .global []
      (by decide) (by decide) (by decide)).2.1⟩

end Mcp
